import Mathlib

/-!
Expense service: record model, data access, service layer and handlers.

A shallow embedding of the Go packages `expense` (expense/expense.go) and
`cmd` (cmd/handler.go, cmd/middleware.go, cmd/execute.go), followed by theorems
about them.

* Go `error` values are modelled by `GoError`; a nil error is `none`.
* `float64` is modelled by its IEEE 754 binary64 fields (`Float64`).
* The SQL store behind `*sql.DB` is a table of rows, a per-statement driver
  failure and the log of the statements issued (`DB`).
* Of the standard library, `strconv.ParseInt(s, 10, 64)` and
  `time.Parse("January 02, 2006", value)` are embedded on the bytes of the text.
* A handler returns what `c.JSON` returns; `c.JSON` fails when the encoder
  refuses the value (an amount that is a NaN or an infinity), and the answer is
  then the status 500 of echo's error handler (`echo.JSON`, `echo.answer`).
-/

namespace Assessment

/-! ## Go errors -/

/-- Go error values. `errorString` is the value made by `errors.New`; Go compares
these by the address of the allocation, kept here as `addr`. `wrapError` is the
value made by `fmt.Errorf` with a `%w` verb: the formatted message and the
wrapped error. -/
inductive GoError where
  | errorString (addr : Nat) (s : String)
  | wrapError (msg : String) (err : GoError)
  deriving DecidableEq, Repr

deriving instance DecidableEq for Except

namespace GoError

/-- The method `Error()`. -/
def Error : GoError → String
  | errorString _ s => s
  | wrapError msg _ => msg

end GoError

namespace errors

/-- The function `errors.Unwrap`: the wrapped error of a `wrapError`, nil otherwise. -/
def Unwrap : GoError → Option GoError
  | .errorString _ _ => none
  | .wrapError _ err => some err

/-- The loop of `errors.Is` on a non-nil error: compare, then follow `Unwrap`.
None of the error types of this program has an `Is` method. -/
def is : GoError → GoError → Bool
  | .errorString a s, target => decide (GoError.errorString a s = target)
  | .wrapError msg err, target =>
    decide (GoError.wrapError msg err = target) || is err target

/-- The function `errors.Is(err, target)` for a non-nil target; `err` may be nil. -/
def Is : Option GoError → GoError → Bool
  | none, _ => false
  | some err, target => is err target

end errors

namespace fmt

/-- The call `fmt.Errorf(format, ..., err)` whose format ends in `: %w`: `pre` is
the text formatted before the verb. -/
def Errorf (pre : String) (err : GoError) : GoError :=
  .wrapError (pre ++ err.Error) err

end fmt

namespace sql

/-- The sentinel `sql.ErrNoRows` of database/sql. -/
def ErrNoRows : GoError := .errorString 0 "sql: no rows in result set"

end sql

/-! ## float64 -/

/-- An IEEE 754 binary64 value by its three fields: sign bit, biased exponent and
fraction. Every bit pattern of a Go `float64` is one value of this type. -/
structure Float64 where
  sign : Bool
  exponent : Fin 2048
  mantissa : Fin 4503599627370496
  deriving DecidableEq, Repr

namespace Float64

/-- Not-a-number: the exponent is all ones and the fraction is not zero. -/
def isNaN (x : Float64) : Bool :=
  x.exponent.val == 2047 && x.mantissa.val != 0

/-- The magnitude of the bit pattern, monotone in the absolute value. -/
def magnitude (x : Float64) : Nat :=
  x.exponent.val * 4503599627370496 + x.mantissa.val

/-- The position of a value that is not a NaN on the extended real line, as an
integer; both zeros map to 0. -/
def key (x : Float64) : Int :=
  if x.sign then - (x.magnitude : Int) else (x.magnitude : Int)

/-- Go's `x <= y` on float64: false when either operand is a NaN. -/
def le (x y : Float64) : Bool :=
  !x.isNaN && !y.isNaN && decide (x.key ≤ y.key)

/-- Go's `x < y` on float64: false when either operand is a NaN. -/
def lt (x y : Float64) : Bool :=
  !x.isNaN && !y.isNaN && decide (x.key < y.key)

/-- Go's `x > y` on float64. -/
def gt (x y : Float64) : Bool := lt y x

/-- Neither a NaN nor an infinity: the exponent is not all ones. -/
def isFinite (x : Float64) : Bool := x.exponent.val != 2047

/-- The constant `0` converted to float64 (positive zero). -/
def zero : Float64 := ⟨false, 0, 0⟩

/-- Negative zero. -/
def negZero : Float64 := ⟨true, 0, 0⟩

/-- The value 1. -/
def one : Float64 := ⟨false, 1023, 0⟩

/-- The value -1. -/
def negOne : Float64 := ⟨true, 1023, 0⟩

/-- The value 10 (1.25 * 2^3). -/
def ten : Float64 := ⟨false, 1026, 1125899906842624⟩

/-- The value 75 (1.171875 * 2^6). -/
def seventyFive : Float64 := ⟨false, 1029, 774056185954304⟩

/-- A quiet NaN. -/
def nan : Float64 := ⟨false, 2047, 2251799813685248⟩

/-- Positive infinity. -/
def inf : Float64 := ⟨false, 2047, 0⟩

/-- Negative infinity. -/
def negInf : Float64 := ⟨true, 2047, 0⟩

end Float64

/-! ## Package expense: the record model -/

namespace expense

/-- The sentinel `ErrNotFound`. -/
def ErrNotFound : GoError := .errorString 1 "not found"

/-- The sentinel `ErrAmountInvalid`. -/
def ErrAmountInvalid : GoError := .errorString 2 "amount must be greater than zero"

/-- The sentinel `ErrTitleEmpty`. -/
def ErrTitleEmpty : GoError := .errorString 3 "empty title"

/-- The struct `Expense`. A nil `Tags` slice is `none`. -/
structure Expense where
  ID : Int
  Amount : Float64
  Title : String
  Note : String
  Tags : Option (List String)
  deriving DecidableEq, Repr

/-- The method `(*Expense).Validate`; `none` is the nil error. -/
def Expense.Validate (e : Expense) : Option GoError :=
  if e.Amount.le Float64.zero then
    some ErrAmountInvalid
  else if e.Title == "" then
    some ErrTitleEmpty
  else
    none

/-! ## The SQL store -/

/-- The four statements the package builds with the query builder, with their
arguments in placeholder order. -/
inductive Stmt where
  /-- INSERT INTO expenses (amount,title,note,tags) VALUES ($1,$2,$3,$4)
  RETURNING id, amount, title, note, tags -/
  | insert (amount : Float64) (title note : String) (tags : Option (List String))
  /-- SELECT id, amount, title, note, tags FROM expenses WHERE id = $1 LIMIT 1 -/
  | selectByID (id : Int)
  /-- SELECT id, amount, title, note, tags FROM expenses ORDER BY id DESC -/
  | selectAll
  /-- UPDATE expenses SET amount = $1, title = $2, note = $3, tags = $4 WHERE id = $5 -/
  | update (amount : Float64) (title note : String) (tags : Option (List String)) (id : Int)
  deriving DecidableEq, Repr

/-- The state behind `*sql.DB`: the rows of table `expenses`, the next value of
the `SERIAL` column, the failure the driver reports for a statement (`none`: the
statement runs), and the statements issued so far, oldest first. -/
structure DB where
  rows : List Expense
  nextID : Int
  fault : Stmt → Option GoError
  log : List Stmt

/-- Send one statement to the store: it is logged; when the driver fails, the
table is left as it was; otherwise the statement takes effect and its result
rows come back. -/
def DB.run (db : DB) (q : Stmt) : Except GoError (List Expense) × DB :=
  let db1 : DB := { db with log := db.log ++ [q] }
  match db.fault q with
  | some err => (.error err, db1)
  | none =>
    match q with
    | .insert amount title note tags =>
      let row : Expense := ⟨db.nextID, amount, title, note, tags⟩
      (.ok [row], { db1 with rows := db.rows ++ [row], nextID := db.nextID + 1 })
    | .selectByID id =>
      (.ok ((db.rows.filter (fun r => r.ID == id)).take 1), db1)
    | .selectAll =>
      (.ok (db.rows.insertionSort (fun a b => b.ID ≤ a.ID)), db1)
    | .update amount title note tags id =>
      (.ok [], { db1 with rows := db.rows.map (fun r =>
        if r.ID == id then ⟨r.ID, amount, title, note, tags⟩ else r) })

/-- The result of `db.QueryRowContext`: what `Row.Scan` will report, the driver's
error, `sql.ErrNoRows` when the result is empty, or the first row. -/
abbrev Row := Except GoError Expense

/-- The method `(*sql.DB).QueryRowContext`. -/
def DB.QueryRowContext (db : DB) (q : Stmt) : Row × DB :=
  match db.run q with
  | (.error err, db1) => (.error err, db1)
  | (.ok [], db1) => (.error sql.ErrNoRows, db1)
  | (.ok (r :: _), db1) => (.ok r, db1)

/-- The method `(*sql.DB).QueryContext`, with the rows read to the end. -/
def DB.QueryContext (db : DB) (q : Stmt) : Except GoError (List Expense) × DB :=
  db.run q

/-- The method `(*sql.DB).ExecContext`; `none` is the nil error. -/
def DB.ExecContext (db : DB) (q : Stmt) : Option GoError × DB :=
  match db.run q with
  | (.error err, db1) => (some err, db1)
  | (.ok _, db1) => (none, db1)

/-! ## Data access functions -/

/-- The function `scanExpense`, applied to `row.Scan`: the five columns in the
order id, amount, title, note, tags. -/
def scanExpense (row : Row) : Except GoError Expense :=
  match row with
  | .error err => .error err
  | .ok r => .ok ⟨r.ID, r.Amount, r.Title, r.Note, r.Tags⟩

/-- The function `createExpense`. The builder's `ToSql` cannot fail on this fixed
statement. On success the record is overwritten with the returned row. -/
def createExpense (db : DB) (e : Expense) : Except GoError Expense × DB :=
  let (row, db1) := db.QueryRowContext (.insert e.Amount e.Title e.Note e.Tags)
  match scanExpense row with
  | .error err => (.error err, db1)
  | .ok r => (.ok r, db1)

/-- The function `updateExpense`; `none` is the nil error. -/
def updateExpense (db : DB) (e : Expense) : Option GoError × DB :=
  match db.ExecContext (.update e.Amount e.Title e.Note e.Tags e.ID) with
  | (some err, db1) => (some err, db1)
  | (none, db1) => (none, db1)

/-- The function `getExpenseByID`. -/
def getExpenseByID (db : DB) (id : Int) : Except GoError Expense × DB :=
  let (row, db1) := db.QueryRowContext (.selectByID id)
  match scanExpense row with
  | .error err =>
    if errors.Is (some err) sql.ErrNoRows then (.error ErrNotFound, db1)
    else (.error err, db1)
  | .ok e => (.ok e, db1)

/-- The loop `for rows.Next()` of `listExpenses` over the rows left: each row is
scanned and appended to the slice; a nil slice is `none`. -/
def listLoop : List Expense → Option (List Expense) → Except GoError (Option (List Expense))
  | [], exps => .ok exps
  | r :: rs, exps =>
    match scanExpense (.ok r) with
    | .error err => .error err
    | .ok e => listLoop rs (some (exps.getD [] ++ [e]))

/-- The function `listExpenses`. The slice starts as `make([]Expense, 0)`, empty
and not nil; on an error the slice returned is nil. -/
def listExpenses (db : DB) : Except GoError (Option (List Expense)) × DB :=
  match db.QueryContext .selectAll with
  | (.error err, db1) => (.error err, db1)
  | (.ok rows, db1) =>
    match listLoop rows (some []) with
    | .error err => (.error err, db1)
    | .ok exps => (.ok exps, db1)

/-! ## Service layer -/

/-- The struct `Service`. -/
structure Service where
  db : DB

/-- The method `(*Service).Save`. -/
def Service.Save (s : Service) (e : Expense) : Except GoError Expense × Service :=
  match createExpense s.db e with
  | (.error err, db1) => (.error (fmt.Errorf "createExpense(): " err), ⟨db1⟩)
  | (.ok e1, db1) => (.ok e1, ⟨db1⟩)

/-- The method `(*Service).Update`. -/
def Service.Update (s : Service) (e : Expense) : Except GoError Expense × Service :=
  match getExpenseByID s.db e.ID with
  | (.error err, db1) =>
    (.error (fmt.Errorf ("getExpenseByID(" ++ toString e.ID ++ "): ") err), ⟨db1⟩)
  | (.ok exp, db1) =>
    let exp := { exp with Amount := e.Amount }
    let exp := { exp with Title := e.Title }
    let exp := { exp with Note := e.Note }
    let exp := { exp with Tags := e.Tags }
    match updateExpense db1 exp with
    | (some err, db2) => (.error (fmt.Errorf "updateExpense(): " err), ⟨db2⟩)
    | (none, db2) => (.ok exp, ⟨db2⟩)

/-- The method `(*Service).GetByID`. -/
def Service.GetByID (s : Service) (id : Int) : Except GoError Expense × Service :=
  match getExpenseByID s.db id with
  | (.error err, db1) =>
    (.error (fmt.Errorf ("getExpenseByID(" ++ toString id ++ "): ") err), ⟨db1⟩)
  | (.ok exp, db1) => (.ok exp, ⟨db1⟩)

/-- The method `(*Service).List`. -/
def Service.List (s : Service) : Except GoError (Option (List Expense)) × Service :=
  match listExpenses s.db with
  | (.error err, db1) => (.error (fmt.Errorf "listExpenses(): " err), ⟨db1⟩)
  | (.ok exps, db1) => (.ok exps, ⟨db1⟩)

end expense

/-! ## Go strings and strconv -/

/-- The UTF-8 encoding of one character. -/
def utf8 (c : Char) : List Nat :=
  let v := c.toNat
  if v < 128 then [v]
  else if v < 2048 then [192 + v / 64, 128 + v % 64]
  else if v < 65536 then [224 + v / 4096, 128 + v / 64 % 64, 128 + v % 64]
  else [240 + v / 262144, 128 + v / 4096 % 64, 128 + v / 64 % 64, 128 + v % 64]

/-- The bytes of a Go string, `[]byte(s)`. -/
def bytes (s : String) : List Nat := s.toList.flatMap utf8

namespace strconv

/-- The two causes a `*NumError` carries. -/
inductive NumError where
  | ErrSyntax
  | ErrRange
  deriving DecidableEq, Repr

/-- The constant `maxUint64`. -/
def maxUint64 : Nat := 2 ^ 64 - 1

/-- The helper `lower`: `c | ('x' - 'X')`. -/
def lower (c : Nat) : Nat := c ||| 32

/-- The switch on one byte in the loop of `ParseUint`, base not 0: the digit
value, or `none` for the default case. -/
def digit (c : Nat) : Option Nat :=
  if 48 ≤ c ∧ c ≤ 57 then some (c - 48)
  else if 97 ≤ lower c ∧ lower c ≤ 122 then some (lower c - 97 + 10)
  else none

/-- The loop of `ParseUint(s, 10, 64)` over the bytes left, `n` being the value
so far. The arithmetic is that of uint64. -/
def parseUintLoop : List Nat → Nat → Nat × Option NumError
  | [], n => (n, none)
  | c :: cs, n =>
    match digit c with
    | none => (0, some .ErrSyntax)
    | some d =>
      if d ≥ 10 then (0, some .ErrSyntax)
      else if n ≥ maxUint64 / 10 + 1 then (maxUint64, some .ErrRange)
      else
        let n10 := n * 10 % 2 ^ 64
        let n1 := (n10 + d) % 2 ^ 64
        if n1 < n10 ∨ n1 > maxUint64 then (maxUint64, some .ErrRange)
        else parseUintLoop cs n1

/-- The function `strconv.ParseUint(s, 10, 64)` on the bytes of `s`. -/
def ParseUint (s : List Nat) : Nat × Option NumError :=
  if s = [] then (0, some .ErrSyntax)
  else parseUintLoop s 0

/-- The conversion `int64(x)` of an integer: reduction into the signed 64-bit range. -/
def int64 (x : Int) : Int := (x + 2 ^ 63) % 2 ^ 64 - 2 ^ 63

/-- The body of `strconv.ParseInt(s, 10, 64)` on the bytes of `s`. -/
def parseIntBytes (s : List Nat) : Int × Option NumError :=
  match s with
  | [] => (0, some .ErrSyntax)
  | c :: t =>
    let neg := decide (c = 45)
    let s1 := if c = 43 then t else if c = 45 then t else c :: t
    match ParseUint s1 with
    | (_, some .ErrSyntax) => (0, some .ErrSyntax)
    | (un, _) =>
      let cutoff := 2 ^ 63
      if !neg ∧ un ≥ cutoff then (int64 (cutoff - 1), some .ErrRange)
      else if neg ∧ un > cutoff then (int64 (- int64 cutoff), some .ErrRange)
      else
        let n := int64 un
        (if neg then int64 (- n) else n, none)

/-- The function `strconv.ParseInt(s, 10, 64)`: the value and the error (`none`
is nil). -/
def ParseInt (s : String) : Int × Option NumError := parseIntBytes (bytes s)

end strconv

/-! ## Package time: parsing with the layout "January 02, 2006" -/

namespace time

/-- The date a successful parse yields (the clock fields are zero, the zone UTC). -/
structure Time where
  year : Int
  month : Nat
  day : Nat
  deriving DecidableEq, Repr

/-- The table `longMonthNames`. -/
def longMonthNames : List String :=
  ["January", "February", "March", "April", "May", "June", "July", "August",
   "September", "October", "November", "December"]

/-- The function `match`: equality of two byte strings of the same length, up to
the case of ASCII letters. -/
def matchFold : List Nat → List Nat → Bool
  | [], _ => true
  | _ :: _, [] => false
  | c1 :: s1, c2 :: s2 =>
    if c1 ≠ c2 then
      if (c1 ||| 32) ≠ (c2 ||| 32) ∨ (c1 ||| 32) < 97 ∨ (c1 ||| 32) > 122 then false
      else matchFold s1 s2
    else matchFold s1 s2

/-- The loop of `lookup` from index `i` on. -/
def lookupFrom : List String → Nat → List Nat → Option (Nat × List Nat)
  | [], _, _ => none
  | v :: tab, i, val =>
    if val.length ≥ (bytes v).length ∧ matchFold (val.take (bytes v).length) (bytes v) then
      some (i, val.drop (bytes v).length)
    else lookupFrom tab (i + 1) val

/-- The function `lookup(tab, val)`: the index of the first name `val` starts
with and the rest of `val`; `none` is `errBad`. -/
def lookup (tab : List String) (val : List Nat) : Option (Nat × List Nat) :=
  lookupFrom tab 0 val

/-- The function `isDigit(s, i)`. -/
def isDigit (s : List Nat) (i : Nat) : Bool :=
  match s.get? i with
  | none => false
  | some c => 48 ≤ c && c ≤ 57

/-- The function `getnum(s, fixed)`: a number of one or two digits, of two when
`fixed`; `none` is `errBad`. -/
def getnum (s : List Nat) (fixed : Bool) : Option (Nat × List Nat) :=
  if !isDigit s 0 then none
  else if !isDigit s 1 then
    if fixed then none else some (s.getD 0 48 - 48, s.drop 1)
  else some ((s.getD 0 48 - 48) * 10 + (s.getD 1 48 - 48), s.drop 2)

/-- The function `leadingInt` with `x` the value so far: the leading digits and
the rest; `none` is `errLeadingInt`. -/
def leadingInt : List Nat → Nat → Option (Nat × List Nat)
  | [], x => some (x, [])
  | c :: s, x =>
    if c < 48 ∨ c > 57 then some (x, c :: s)
    else if x > 2 ^ 63 / 10 then none
    else if x * 10 + c - 48 > 2 ^ 63 then none
    else leadingInt s (x * 10 + c - 48)

/-- The function `atoi`; `none` is `atoiError`. -/
def atoi (s : List Nat) : Option Int :=
  let neg := decide (s.head? = some 45)
  let s1 := if s.head? = some 45 ∨ s.head? = some 43 then s.drop 1 else s
  match leadingInt s1 0 with
  | none => none
  | some (q, rem) =>
    if rem ≠ [] then none
    else some (if neg then - strconv.int64 q else strconv.int64 q)

/-- The function `cutspace`. -/
def cutspace (s : List Nat) : List Nat := s.dropWhile (fun c => c == 32)

/-- The loop of `skip`, with a bound on the number of rounds; each round removes
at least one byte of the prefix. -/
def skipLoop : Nat → List Nat → List Nat → Option (List Nat)
  | _, value, [] => some value
  | 0, _, _ :: _ => none
  | fuel + 1, value, p :: ps =>
    if p = 32 then
      if value ≠ [] ∧ value.head? ≠ some 32 then none
      else skipLoop fuel (cutspace value) (cutspace (p :: ps))
    else if value = [] ∨ value.head? ≠ some p then none
    else skipLoop fuel (value.drop 1) ps

/-- The function `skip(value, prefix)`: the value after the prefix, a space of the
prefix standing for any run of spaces; `none` is `errBad`. -/
def skip (value pre : List Nat) : Option (List Nat) :=
  skipLoop pre.length value pre

/-- The function `isLeap`. -/
def isLeap (year : Int) : Bool :=
  year % 4 == 0 && (year % 100 != 0 || year % 400 == 0)

/-- The function `daysIn`. -/
def daysIn (m : Nat) (year : Int) : Nat :=
  if m = 2 ∧ isLeap year then 29
  else [31, 28, 31, 30, 31, 30, 31, 31, 30, 31, 30, 31].getD (m - 1) 0

/-- The body of `parse` for the layout "January 02, 2006" on the bytes of the
value; `none` is a `*ParseError`. `nextStdChunk` cuts this layout into
`stdLongMonth` after the prefix "", `stdZeroDay` after " ", `stdLongYear` after
", ", and the end of the layout after ""; the loop handles them in this order,
then the day of the month is validated. -/
def parseBytes (value : List Nat) : Option Time :=
  match skip value (bytes "") with
  | none => none
  | some v1 =>
    match lookup longMonthNames v1 with
    | none => none
    | some (m, v2) =>
      match skip v2 (bytes " ") with
      | none => none
      | some v3 =>
        match getnum v3 true with
        | none => none
        | some (day, v4) =>
          match skip v4 (bytes ", ") with
          | none => none
          | some v5 =>
            if v5.length < 4 ∨ !isDigit v5 0 then none
            else
              match atoi (v5.take 4) with
              | none => none
              | some year =>
                match skip (v5.drop 4) (bytes "") with
                | none => none
                | some v6 =>
                  if v6.length ≠ 0 then none
                  else if day < 1 ∨ day > daysIn (m + 1) year then none
                  else some ⟨year, m + 1, day⟩

/-- The function `time.Parse("January 02, 2006", value)`. -/
def Parse (value : String) : Option Time := parseBytes (bytes value)

/-- The method `Month.String`. -/
def monthString (m : Nat) : String :=
  if 1 ≤ m ∧ m ≤ 12 then longMonthNames.getD (m - 1) ""
  else "%!Month(" ++ toString m ++ ")"

/-- The lowest `w` decimal digits of `u`, as bytes, highest first. -/
def padDigits : Nat → Nat → List Nat
  | 0, _ => []
  | w + 1, u => padDigits w (u / 10) ++ [48 + u % 10]

/-- The function `appendInt(b, x, width)`: the bytes appended, a sign and the
decimal digits padded with zeros to the width. -/
def appendInt (x : Int) (width : Nat) : List Nat :=
  (if x < 0 then [45] else []) ++
    (if x.natAbs < 10 ^ width then padDigits width x.natAbs
     else (Nat.toDigits 10 x.natAbs).map Char.toNat)

/-- The bytes of `t.Format("January 02, 2006")`. -/
def formatBytes (t : Time) : List Nat :=
  bytes (monthString t.month) ++ bytes " " ++ appendInt t.day 2 ++ bytes ", " ++
    appendInt t.year 4

/-- The method `t.Format("January 02, 2006")`; all its bytes are ASCII. -/
def Format (t : Time) : String := String.mk ((formatBytes t).map Char.ofNat)

end time

/-! ## Package os: the environment -/

namespace os

/-- The environment of the process: the value of each variable that is set. -/
abbrev Environ := String → Option String

/-- The function `os.Getenv`: the value, empty when the variable is not set. -/
def Getenv (env : Environ) (key : String) : String := (env key).getD ""

end os

/-! ## What the specification calls a valid id

"base-10 integers fitting a 64-bit signed range" -/

/-- A decimal digit. -/
def isDecimalDigit (c : Char) : Bool := 48 ≤ c.toNat && c.toNat ≤ 57

/-- The number a string of decimal digits denotes. -/
def decimalValue (cs : List Char) : Nat :=
  cs.foldl (fun a c => 10 * a + (c.toNat - 48)) 0

/-- A non-empty string of decimal digits. -/
def isDecimal (cs : List Char) : Bool := !cs.isEmpty && cs.all isDecimalDigit

/-- The integer a text denotes in base 10 when it fits the signed 64-bit range:
an optional sign, then one or more decimal digits. `none` for every other text. -/
def base10Int64 (s : String) : Option Int :=
  match s.toList with
  | [] => none
  | c :: ds =>
    if c = '-' then
      if isDecimal ds ∧ decimalValue ds ≤ 2 ^ 63 then some (- (decimalValue ds : Int)) else none
    else if c = '+' then
      if isDecimal ds ∧ decimalValue ds < 2 ^ 63 then some (decimalValue ds : Int) else none
    else
      if isDecimal (c :: ds) ∧ decimalValue (c :: ds) < 2 ^ 63 then
        some (decimalValue (c :: ds) : Int)
      else none

/-! ## Package cmd: the request handlers -/

namespace json

/-- A hexadecimal digit, lower case. -/
def hex (n : Nat) : Char := "0123456789abcdef".toList.getD n '0'

/-- The encoder's text for one character of a string, HTML escaping on. -/
def encodeChar (c : Char) : String :=
  if c = '"' then "\\\""
  else if c = '\\' then "\\\\"
  else if c = '\n' then "\\n"
  else if c = '\r' then "\\r"
  else if c = '\t' then "\\t"
  else if c.toNat < 32 ∨ c = '<' ∨ c = '>' ∨ c = '&' then
    "\\u00" ++ String.mk [hex (c.toNat / 16), hex (c.toNat % 16)]
  else if c.toNat = 8232 then "\\u2028"
  else if c.toNat = 8233 then "\\u2029"
  else String.mk [c]

/-- The encoder's text for a string value. -/
def encodeString (s : String) : String :=
  "\"" ++ String.join (s.toList.map encodeChar) ++ "\""

/-- The error `*json.UnsupportedValueError` the encoder returns for a float64 that
is a NaN or an infinity. -/
def UnsupportedValueError (x : Float64) : GoError :=
  .errorString 5 ("json: unsupported value: " ++
    (if x.isNaN then "NaN" else if x.sign then "-Inf" else "+Inf"))

/-- The encoder's text for a slice, given the text of its elements: `null` for
a nil slice, otherwise the elements between brackets, separated by commas. -/
def encodeSlice {α : Type} (enc : α → String) : Option (List α) → String
  | none => "null"
  | some xs => "[" ++ String.intercalate "," (xs.map enc) ++ "]"

end json

namespace echo

/-- The value `echo.Map` with the two keys "code" and "message" the handlers
build. -/
structure Map where
  code : Nat
  message : String
  deriving DecidableEq, Repr

/-- The JSON document of such a map: keys in sorted order. -/
def Map.json (m : Map) : String :=
  "\x7b\"code\":" ++ toString m.code ++ ",\"message\":" ++ json.encodeString m.message ++ "\x7d"

/-- The value handed to `c.JSON`: a map of the handlers, a record, a slice of
records, or the map with the single key "message" of echo's error handler. -/
inductive Payload where
  | map (m : Map)
  | expense (e : expense.Expense)
  | expenses (es : Option (List expense.Expense))
  | message (m : String)
  deriving DecidableEq, Repr

/-- The response written by `c.JSON(code, i)`. -/
structure Response where
  Code : Nat
  Body : Payload
  deriving DecidableEq, Repr

/-- The error of the encoder on a value, `none` when it encodes: the maps always
encode, a record does unless its amount is a NaN or an infinity, a slice does
unless one of its records does not. -/
def Payload.marshalError : Payload → Option GoError
  | .map _ => none
  | .message _ => none
  | .expense e =>
    if e.Amount.isFinite then none else some (json.UnsupportedValueError e.Amount)
  | .expenses es =>
    match (es.getD []).find? (fun e => !e.Amount.isFinite) with
    | none => none
    | some e => some (json.UnsupportedValueError e.Amount)

/-- The method `c.JSON(code, i)`: the response written, or the error of the
encoder, nothing being written then. -/
def JSON (code : Nat) (i : Payload) : Except GoError Response :=
  match i.marshalError with
  | some err => .error err
  | none => .ok ⟨code, i⟩

/-- What the server answers when a handler returns the result of `c.JSON`: the
response written, or, for the error of the encoder, the answer of echo's
`DefaultHTTPErrorHandler`: status 500 with the map of message "Internal Server
Error". -/
def answer : Except GoError Response → Response
  | .ok r => r
  | .error _ => ⟨500, .message "Internal Server Error"⟩

/-- What a handler reads of `echo.Context`: the path parameters, the request
headers, and the outcome of `c.Bind` on a zero `Expense` (`none`: Bind returns an
error; otherwise the record after binding). -/
structure Context where
  Param : String → String
  Header : String → String
  Bind : Option expense.Expense

end echo

namespace cmd

open expense echo

/-- The struct `handler`. -/
structure handler where
  expenseSvc : Service

/-- The expression `errors.Unwrap(err).Error()`; `none` when `Unwrap` returns nil
and the call panics. -/
def unwrapError (err : GoError) : Option String :=
  (errors.Unwrap err).map GoError.Error

/-- The method `(*handler).SaveExpense`: the answer of the server, which is the
response `c.JSON` writes or the 500 of the error handler when the handler returns
the error of `c.JSON`, and the handler with the store as the call leaves it. -/
def handler.SaveExpense (h : handler) (c : Context) : Response × handler :=
  match c.Bind with
  | none => (answer (JSON 400 (.map ⟨400, "invalid request body"⟩)), h)
  | some exp =>
    match exp.Validate with
    | some err => (answer (JSON 400 (.map ⟨400, err.Error⟩)), h)
    | none =>
      match h.expenseSvc.Save exp with
      | (.error _, svc) =>
        (answer (JSON 500 (.map ⟨500, "Internal Server Error: "⟩)), ⟨svc⟩)
      | (.ok e, svc) => (answer (JSON 201 (.expense e)), ⟨svc⟩)

/-- The method `(*handler).UpdateExpense`: the answer of the server, `none` when
the handler panics, and the handler after the call. -/
def handler.UpdateExpense (h : handler) (c : Context) : Option Response × handler :=
  match strconv.ParseInt (c.Param "id") with
  | (_, some _) => (some (answer (JSON 400 (.map ⟨400, "invalid params"⟩))), h)
  | (id, none) =>
    match c.Bind with
    | none => (some (answer (JSON 400 (.map ⟨400, "invalid request body"⟩))), h)
    | some exp =>
      match exp.Validate with
      | some err => (some (answer (JSON 400 (.map ⟨400, err.Error⟩))), h)
      | none =>
        let exp := { exp with ID := id }
        match h.expenseSvc.Update exp with
        | (.error err, svc) =>
          if errors.Is (some err) ErrNotFound then
            ((unwrapError err).map (fun m => answer (JSON 404 (.map ⟨404, m⟩))), ⟨svc⟩)
          else
            (some (answer (JSON 500 (.map ⟨500, "Internal Server Error: "⟩))), ⟨svc⟩)
        | (.ok ex, svc) => (some (answer (JSON 200 (.expense ex))), ⟨svc⟩)

/-- The method `(*handler).ListExpenses`: the answer of the server and the handler
after the call. -/
def handler.ListExpenses (h : handler) (_c : Context) : Response × handler :=
  match h.expenseSvc.List with
  | (.error _, svc) => (answer (JSON 500 (.map ⟨500, "Internal Server Error"⟩)), ⟨svc⟩)
  | (.ok exps, svc) => (answer (JSON 200 (.expenses exps)), ⟨svc⟩)

/-- The method `(*handler).GetExpenseByID`: the answer of the server, `none` when
the handler panics, and the handler after the call. -/
def handler.GetExpenseByID (h : handler) (c : Context) : Option Response × handler :=
  match strconv.ParseInt (c.Param "id") with
  | (_, some _) => (some (answer (JSON 400 (.map ⟨400, "invalid params"⟩))), h)
  | (id, none) =>
    match h.expenseSvc.GetByID id with
    | (.error err, svc) =>
      if errors.Is (some err) ErrNotFound then
        ((unwrapError err).map (fun m => answer (JSON 404 (.map ⟨404, m⟩))), ⟨svc⟩)
      else
        (some (answer (JSON 500 (.map ⟨500, "Internal Server Error : "⟩))), ⟨svc⟩)
    | (.ok exp, svc) => (some (answer (JSON 200 (.expense exp))), ⟨svc⟩)

/-- The sentinel `ErrInvalidTokenAuth`. -/
def ErrInvalidTokenAuth : GoError := .errorString 4 "missing or invalid token authentication"

/-- The type `echo.HandlerFunc`: from the context and the state of the server to
the answer of the server (`none`: a panic) and the state after the call. -/
abbrev HandlerFunc (σ : Type) := Context → σ → Option Response × σ

/-- The middleware `Auth`. -/
def Auth {σ : Type} (next : HandlerFunc σ) : HandlerFunc σ := fun c s =>
  let tk := c.Header "Authorization"
  match time.Parse tk with
  | none => (some (answer (JSON 401 (.map ⟨401, ErrInvalidTokenAuth.Error⟩))), s)
  | some _ => next c s

/-- The function `getEnv`, reading the environment `env`. -/
def getEnv (env : os.Environ) (key fallback : String) : String :=
  let value := os.Getenv env key
  if value ≠ "" then value else fallback

end cmd

/-! ## Example values -/

namespace expense

/-- A store used in the examples: two rows, a driver that never fails. -/
def exampleDB : DB :=
  { rows := [⟨1, Float64.ten, "Ice Milk", "", some ["drinks"]⟩,
             ⟨2, Float64.one, "Tea", "cup", none⟩],
    nextID := 3,
    fault := fun _ => none,
    log := [] }

/-- A store with an empty table and a driver that never fails. -/
def emptyDB : DB := { rows := [], nextID := 1, fault := fun _ => none, log := [] }

/-- The same store with a driver that fails on every statement with the given
error. -/
def brokenDB (d : GoError) : DB := { exampleDB with fault := fun _ => some d }

end expense

namespace cmd

/-- A handler over the example store. -/
def exampleHandler : handler := ⟨⟨expense.exampleDB⟩⟩

/-- A request context with the given id path parameter and outcome of Bind, and
no headers. -/
def exampleContext (id : String) (body : Option expense.Expense) : echo.Context :=
  { Param := fun name => if name = "id" then id else "",
    Header := fun _ => "",
    Bind := body }

/-- A request context with the given Authorization header, no path parameter
and a body that does not bind. -/
def exampleContextAuth (tk : String) : echo.Context :=
  { Param := fun _ => "",
    Header := fun name => if name = "Authorization" then tk else "",
    Bind := none }

/-- A handler that counts its calls in the state and writes status 200. -/
def exampleNext : HandlerFunc Nat := fun _ n =>
  (some ⟨200, .map ⟨200, "test"⟩⟩, n + 1)

/-- An environment in which only PORT is set, to 8000. -/
def exampleEnv : os.Environ := fun key => if key = "PORT" then some "8000" else none

/-- An environment in which PORT is set to the empty string. -/
def exampleEnvEmpty : os.Environ := fun key => if key = "PORT" then some "" else none

end cmd

/-! # Theorems -/

/-! ## Shared lemmas -/

namespace Float64

/-- Zero is not a NaN. -/
theorem zero_isNaN : zero.isNaN = false := by decide

/-- Zero sits at position 0. -/
theorem zero_key : zero.key = 0 := by decide

/-- The comparison `x <= 0`. -/
theorem le_zero_iff (x : Float64) : x.le zero = true ↔ x.isNaN = false ∧ x.key ≤ 0 := by
  simp [le, zero_isNaN, zero_key]

/-- The comparison `x > 0`. -/
theorem gt_zero_iff (x : Float64) : x.gt zero = true ↔ x.isNaN = false ∧ 0 < x.key := by
  simp [gt, lt, zero_isNaN, zero_key]

/-- A value that is `> 0` is not `<= 0`. -/
theorem le_zero_of_gt_zero (x : Float64) (h : x.gt zero = true) : x.le zero = false := by
  have h1 := (gt_zero_iff x).1 h
  cases hle : x.le zero
  · rfl
  · have h2 := (le_zero_iff x).1 hle
    omega

end Float64

/-! ## Encoding the answer -/

namespace echo

/-- A map of the handlers always encodes, so `c.JSON` writes it. -/
@[simp] theorem answer_JSON_map (code : Nat) (m : Map) :
    answer (JSON code (.map m)) = ⟨code, .map m⟩ := rfl

/-- A record whose amount is finite encodes. -/
theorem answer_JSON_expense (code : Nat) (e : expense.Expense)
    (h : e.Amount.isFinite = true) :
    answer (JSON code (.expense e)) = ⟨code, .expense e⟩ := by
  simp [JSON, Payload.marshalError, h, answer]

/-- A record whose amount is a NaN or an infinity does not encode, and the answer
is the 500 of the error handler. -/
theorem answer_JSON_expense_error (code : Nat) (e : expense.Expense)
    (h : e.Amount.isFinite = false) :
    answer (JSON code (.expense e)) = ⟨500, .message "Internal Server Error"⟩ := by
  simp [JSON, Payload.marshalError, h, answer]

/-- Whatever the record, the answer to `c.JSON` on it is the response asked for
or the 500 of the error handler. -/
theorem answer_JSON_expense_cases (code : Nat) (e : expense.Expense) :
    answer (JSON code (.expense e)) = ⟨code, .expense e⟩ ∨
    answer (JSON code (.expense e)) = ⟨500, .message "Internal Server Error"⟩ := by
  cases h : e.Amount.isFinite
  · exact Or.inr (answer_JSON_expense_error code e h)
  · exact Or.inl (answer_JSON_expense code e h)

/-- A slice whose amounts are all finite encodes. -/
theorem answer_JSON_expenses (code : Nat) (es : List expense.Expense)
    (h : ∀ e ∈ es, e.Amount.isFinite = true) :
    answer (JSON code (.expenses (some es))) = ⟨code, .expenses (some es)⟩ := by
  have hf : es.find? (fun e => !e.Amount.isFinite) = none := by
    rw [List.find?_eq_none]
    intro e he
    simp [h e he]
  simp [JSON, Payload.marshalError, hf, answer]

end echo

/-! ## The store and the fetch -/

namespace expense

/-- Whatever a select by id reports, it leaves the table as it was and adds one
entry to the log. -/
theorem QueryRowContext_select_snd (db : DB) (id : Int) :
    (db.QueryRowContext (.selectByID id)).2 = { db with log := db.log ++ [.selectByID id] } := by
  unfold DB.QueryRowContext DB.run
  cases hf : db.fault (.selectByID id) with
  | some err => simp
  | none =>
    simp only []
    cases hr : (db.rows.filter (fun r => r.ID == id)).take 1 <;> simp

/-- A select by id that runs on a table without a row of that id reports
`sql.ErrNoRows`. -/
theorem QueryRowContext_select_none (db : DB) (id : Int)
    (hrun : db.fault (.selectByID id) = none) (hno : ∀ r ∈ db.rows, r.ID ≠ id) :
    (db.QueryRowContext (.selectByID id)).1 = .error sql.ErrNoRows := by
  have hfil : db.rows.filter (fun r => r.ID == id) = [] := by
    rw [List.filter_eq_nil_iff]
    intro r hr
    simpa using hno r hr
  unfold DB.QueryRowContext DB.run
  simp [hrun, hfil]

/-- A select by id fails exactly when the driver fails or no row has that id. -/
theorem QueryRowContext_select_error (db : DB) (id : Int) (hno : ∀ r ∈ db.rows, r.ID ≠ id) :
    ∃ err, (db.QueryRowContext (.selectByID id)).1 = .error err := by
  cases hf : db.fault (.selectByID id) with
  | some err =>
    refine ⟨err, ?_⟩
    unfold DB.QueryRowContext DB.run
    simp [hf]
  | none => exact ⟨_, QueryRowContext_select_none db id hf hno⟩

/-- Scanning copies the row. -/
theorem scanExpense_eq (row : Row) : scanExpense row = row := by
  cases row <;> rfl

/-- The fetch leaves the table as it was and logs one select. -/
theorem getExpenseByID_snd (db : DB) (id : Int) :
    (getExpenseByID db id).2 = { db with log := db.log ++ [.selectByID id] } := by
  have h := QueryRowContext_select_snd db id
  unfold getExpenseByID
  rcases hq : db.QueryRowContext (.selectByID id) with ⟨row, db1⟩
  rw [hq] at h
  simp only [] at h
  subst h
  cases row with
  | error err =>
    simp only [scanExpense]
    split <;> rfl
  | ok e => rfl

/-- The result of the fetch in terms of what the row reports. -/
theorem getExpenseByID_fst (db : DB) (id : Int) :
    (getExpenseByID db id).1 =
      match (db.QueryRowContext (.selectByID id)).1 with
      | .error err =>
        if errors.Is (some err) sql.ErrNoRows then .error ErrNotFound else .error err
      | .ok e => .ok e := by
  unfold getExpenseByID
  rcases hq : db.QueryRowContext (.selectByID id) with ⟨row, db1⟩
  cases row with
  | error err =>
    simp only [scanExpense]
    split <;> rfl
  | ok e => rfl

/-- The function `updateExpense` is one `ExecContext` of the update statement. -/
theorem updateExpense_eq (db : DB) (e : Expense) :
    updateExpense db e = db.ExecContext (.update e.Amount e.Title e.Note e.Tags e.ID) := by
  unfold updateExpense
  rcases hq : db.ExecContext (.update e.Amount e.Title e.Note e.Tags e.ID) with ⟨r, db1⟩
  cases r <;> rfl

/-- An update statement that runs rewrites the four columns of the rows with the
given id and reports no error. -/
theorem ExecContext_update (db : DB) (a : Float64) (t n : String) (g : Option (List String))
    (id : Int) (hrun : db.fault (.update a t n g id) = none) :
    db.ExecContext (.update a t n g id) =
      (none, { db with
        log := db.log ++ [.update a t n g id],
        rows := db.rows.map (fun r => if r.ID == id then ⟨r.ID, a, t, n, g⟩ else r) }) := by
  unfold DB.ExecContext DB.run
  simp [hrun]

/-- Wrapping with `fmt.Errorf` does not change the answer of `errors.Is` against a
sentinel made by `errors.New`. -/
theorem is_Errorf (pre : String) (err : GoError) (a : Nat) (t : String) :
    errors.Is (some (fmt.Errorf pre err)) (.errorString a t) =
      errors.Is (some err) (.errorString a t) := by
  simp [errors.Is, errors.is, fmt.Errorf]

/-- When the fetch fails, `Service.Update` wraps its error and issues nothing else. -/
theorem Update_error (s : Service) (e : Expense) (err : GoError)
    (h : (getExpenseByID s.db e.ID).1 = .error err) :
    s.Update e = (.error (fmt.Errorf ("getExpenseByID(" ++ toString e.ID ++ "): ") err),
      ⟨{ s.db with log := s.db.log ++ [.selectByID e.ID] }⟩) := by
  have h2 := getExpenseByID_snd s.db e.ID
  unfold Service.Update
  rcases hq : getExpenseByID s.db e.ID with ⟨r, db1⟩
  rw [hq] at h h2
  simp only [] at h h2
  subst h h2
  rfl

/-- When the fetch succeeds, `Service.Update` hands the merged record to `updateExpense`. -/
theorem Update_ok (s : Service) (e f : Expense)
    (h : (getExpenseByID s.db e.ID).1 = .ok f) :
    s.Update e =
      match updateExpense { s.db with log := s.db.log ++ [.selectByID e.ID] }
          ⟨f.ID, e.Amount, e.Title, e.Note, e.Tags⟩ with
      | (some err, db2) => (.error (fmt.Errorf "updateExpense(): " err), ⟨db2⟩)
      | (none, db2) => (.ok ⟨f.ID, e.Amount, e.Title, e.Note, e.Tags⟩, ⟨db2⟩) := by
  have h2 := getExpenseByID_snd s.db e.ID
  unfold Service.Update
  rcases hq : getExpenseByID s.db e.ID with ⟨r, db1⟩
  rw [hq] at h h2
  simp only [] at h h2
  subst h h2
  rfl

/-- When the fetch fails, `Service.GetByID` wraps its error. -/
theorem GetByID_error (s : Service) (id : Int) (err : GoError)
    (h : (getExpenseByID s.db id).1 = .error err) :
    s.GetByID id = (.error (fmt.Errorf ("getExpenseByID(" ++ toString id ++ "): ") err),
      ⟨{ s.db with log := s.db.log ++ [.selectByID id] }⟩) := by
  have h2 := getExpenseByID_snd s.db id
  unfold Service.GetByID
  rcases hq : getExpenseByID s.db id with ⟨r, db1⟩
  rw [hq] at h h2
  simp only [] at h h2
  subst h h2
  rfl

/-- When the fetch succeeds, `Service.GetByID` returns the record. -/
theorem GetByID_ok (s : Service) (id : Int) (f : Expense)
    (h : (getExpenseByID s.db id).1 = .ok f) :
    s.GetByID id = (.ok f, ⟨{ s.db with log := s.db.log ++ [.selectByID id] }⟩) := by
  have h2 := getExpenseByID_snd s.db id
  unfold Service.GetByID
  rcases hq : getExpenseByID s.db id with ⟨r, db1⟩
  rw [hq] at h h2
  simp only [] at h h2
  subst h h2
  rfl

/-- A fetch that finds zero rows is reported as `ErrNotFound`. -/
theorem getExpenseByID_no_rows (db : DB) (id : Int)
    (h : (db.QueryRowContext (.selectByID id)).1 = .error sql.ErrNoRows) :
    (getExpenseByID db id).1 = .error ErrNotFound := by
  rw [getExpenseByID_fst, h]
  rfl

/-- A fetch that fails with an error that is not `sql.ErrNoRows` reports that
error unchanged. -/
theorem getExpenseByID_driver_error (db : DB) (id : Int) (d : GoError)
    (h : (db.QueryRowContext (.selectByID id)).1 = .error d)
    (hd : errors.Is (some d) sql.ErrNoRows = false) :
    (getExpenseByID db id).1 = .error d := by
  rw [getExpenseByID_fst, h]
  simp [hd]

end expense

/-! ## strconv.ParseInt -/

namespace strconv

/-- The constant as a literal. -/
theorem maxUint64_eq : maxUint64 = 18446744073709551615 := by decide

/-- A byte from 0 to 9 is a digit of its value. -/
theorem digit_of_range (c : Nat) (h : 48 ≤ c ∧ c ≤ 57) : digit c = some (c - 48) := by
  simp [digit, h]

/-- Any other byte is refused by the switch or is a digit of value 10 or more. -/
theorem digit_not_range (c : Nat) (h : ¬ (48 ≤ c ∧ c ≤ 57)) :
    digit c = none ∨ ∃ d, digit c = some d ∧ 10 ≤ d := by
  unfold digit
  rw [if_neg h]
  split
  · right; exact ⟨_, rfl, by omega⟩
  · left; rfl

/-- The value of a run of digit bytes continued from `n` is at least `n`. -/
theorem bval_ge (bs : List Nat) : ∀ n, n ≤ bs.foldl (fun a b => 10 * a + (b - 48)) n := by
  induction bs with
  | nil => intro n; simp
  | cons c cs ih =>
    intro n
    simp only [List.foldl_cons]
    have := ih (10 * n + (c - 48))
    omega

/-- The loop returns the value of the bytes when they are all decimal digits and the value fits uint64, and an error otherwise: a syntax error with 0 or a range error with the largest uint64. -/
theorem parseUintLoop_spec (bs : List Nat) : ∀ n, n ≤ maxUint64 →
    (((∀ b ∈ bs, 48 ≤ b ∧ b ≤ 57) ∧ bs.foldl (fun a b => 10 * a + (b - 48)) n ≤ maxUint64) ∧
      parseUintLoop bs n = (bs.foldl (fun a b => 10 * a + (b - 48)) n, none)) ∨
    (¬ ((∀ b ∈ bs, 48 ≤ b ∧ b ≤ 57) ∧ bs.foldl (fun a b => 10 * a + (b - 48)) n ≤ maxUint64) ∧
      (parseUintLoop bs n = (0, some .ErrSyntax) ∨
        parseUintLoop bs n = (maxUint64, some .ErrRange))) := by
  induction bs with
  | nil =>
    intro n hn
    left
    simp [parseUintLoop, hn]
  | cons c cs ih =>
    intro n hn
    have hge := bval_ge cs (10 * n + (c - 48))
    rw [maxUint64_eq] at hn
    by_cases hc : 48 ≤ c ∧ c ≤ 57
    · unfold parseUintLoop
      rw [digit_of_range c hc]
      simp only [List.foldl_cons, maxUint64_eq]
      rw [if_neg (by omega)]
      by_cases hcut : n ≥ 18446744073709551615 / 10 + 1
      · rw [if_pos hcut]
        right
        refine ⟨?_, Or.inr rfl⟩
        rintro ⟨_, h⟩
        omega
      · rw [if_neg hcut]
        have h10 : n * 10 % 2 ^ 64 = n * 10 := by omega
        simp only [h10]
        by_cases hov : n * 10 + (c - 48) < 2 ^ 64
        · have h1 : (n * 10 + (c - 48)) % 2 ^ 64 = 10 * n + (c - 48) := by omega
          rw [h1, if_neg (by omega)]
          have := ih (10 * n + (c - 48)) (by rw [maxUint64_eq]; omega)
          rw [maxUint64_eq] at this
          rcases this with ⟨⟨ha, hb⟩, hr⟩ | ⟨hn, hr⟩
          · left
            refine ⟨⟨?_, hb⟩, hr⟩
            intro b hb
            rcases List.mem_cons.1 hb with rfl | hb
            · exact hc
            · exact ha b hb
          · right
            refine ⟨?_, hr⟩
            rintro ⟨ha, hb⟩
            exact hn ⟨fun b hb => ha b (List.mem_cons_of_mem _ hb), hb⟩
        · rw [if_pos (by omega)]
          right
          refine ⟨?_, Or.inr rfl⟩
          rintro ⟨_, h⟩
          omega
    · right
      refine ⟨?_, Or.inl ?_⟩
      · rintro ⟨h, _⟩
        exact hc (h c (List.mem_cons_self _ _))
      · unfold parseUintLoop
        rcases digit_not_range c hc with h | ⟨d, h, hd⟩
        · rw [h]
        · rw [h]
          simp only []
          rw [if_pos hd]

/-- The same for `ParseUint`, which also refuses the empty text. -/
theorem ParseUint_spec (s : List Nat) :
    ((s ≠ [] ∧ (∀ b ∈ s, 48 ≤ b ∧ b ≤ 57) ∧
        s.foldl (fun a b => 10 * a + (b - 48)) 0 ≤ maxUint64) ∧
      ParseUint s = (s.foldl (fun a b => 10 * a + (b - 48)) 0, none)) ∨
    (¬ (s ≠ [] ∧ (∀ b ∈ s, 48 ≤ b ∧ b ≤ 57) ∧
        s.foldl (fun a b => 10 * a + (b - 48)) 0 ≤ maxUint64) ∧
      (ParseUint s = (0, some .ErrSyntax) ∨ ParseUint s = (maxUint64, some .ErrRange))) := by
  unfold ParseUint
  by_cases hs : s = []
  · right
    rw [if_pos hs]
    exact ⟨fun h => h.1 hs, Or.inl rfl⟩
  · rw [if_neg hs]
    rcases parseUintLoop_spec s 0 (Nat.zero_le _) with ⟨⟨ha, hb⟩, hr⟩ | ⟨hn, hr⟩
    · left; exact ⟨⟨hs, ha, hb⟩, hr⟩
    · right; exact ⟨fun h => hn ⟨h.2.1, h.2.2⟩, hr⟩

/-- The conversion keeps a value below 2^63. -/
theorem int64_of_small (v : Nat) (h : v < 2 ^ 63) : int64 (v : Int) = v := by
  unfold int64
  omega

/-- Negation after conversion gives the negative of a value up to 2^63. -/
theorem int64_neg (v : Nat) (h : v ≤ 2 ^ 63) : int64 (- int64 (v : Int)) = - (v : Int) := by
  unfold int64
  omega

/-- The body of `ParseInt` on a non-empty text: after the sign, the bytes must be a non-empty run of decimal digits whose value is at most 2^63 - 1, or 2^63 after a minus sign. -/
theorem parseIntBytes_spec (c : Nat) (t : List Nat) :
    (((if c = 43 then t else if c = 45 then t else c :: t) ≠ [] ∧
      (∀ b ∈ (if c = 43 then t else if c = 45 then t else c :: t), 48 ≤ b ∧ b ≤ 57) ∧
      (if c = 43 then t else if c = 45 then t else c :: t).foldl
        (fun a b => 10 * a + (b - 48)) 0 ≤ (if c = 45 then 2 ^ 63 else 2 ^ 63 - 1)) →
      parseIntBytes (c :: t) =
        (if c = 45 then
          - (((if c = 43 then t else if c = 45 then t else c :: t).foldl
            (fun a b => 10 * a + (b - 48)) 0 : Nat) : Int)
         else
          (((if c = 43 then t else if c = 45 then t else c :: t).foldl
            (fun a b => 10 * a + (b - 48)) 0 : Nat) : Int), none)) ∧
    (¬ ((if c = 43 then t else if c = 45 then t else c :: t) ≠ [] ∧
      (∀ b ∈ (if c = 43 then t else if c = 45 then t else c :: t), 48 ≤ b ∧ b ≤ 57) ∧
      (if c = 43 then t else if c = 45 then t else c :: t).foldl
        (fun a b => 10 * a + (b - 48)) 0 ≤ (if c = 45 then 2 ^ 63 else 2 ^ 63 - 1)) →
      (parseIntBytes (c :: t)).2 ≠ none) := by
  generalize hs1 : (if c = 43 then t else if c = 45 then t else c :: t) = s1
  have hunf : parseIntBytes (c :: t) =
      match ParseUint s1 with
      | (_, some .ErrSyntax) => (0, some .ErrSyntax)
      | (un, _) =>
        if !(decide (c = 45)) ∧ un ≥ 2 ^ 63 then (int64 (2 ^ 63 - 1), some .ErrRange)
        else if (decide (c = 45)) ∧ un > 2 ^ 63 then (int64 (- int64 (2 ^ 63)), some .ErrRange)
        else (if (decide (c = 45)) then int64 (- int64 un) else int64 un, none) := by
    rw [← hs1]
    rfl
  rw [hunf]
  rcases ParseUint_spec s1 with ⟨⟨hne, hdig, hmax⟩, hr⟩ | ⟨hn, hr⟩
  · rw [hr]
    simp only []
    by_cases hc : c = 45
    · simp only [hc, if_true, decide_True, Bool.not_true]
      constructor
      · rintro ⟨_, _, hle⟩
        rw [if_neg (by simp), if_neg (by simp; omega), int64_neg _ hle]
      · intro h
        have : ¬ (List.foldl (fun a b => 10 * a + (b - 48)) 0 s1 ≤ 2 ^ 63) :=
          fun hle => h ⟨hne, hdig, hle⟩
        rw [if_neg (by simp), if_pos (by simp; omega)]
        simp
    · simp only [hc, if_false, decide_False, Bool.not_false]
      constructor
      · rintro ⟨_, _, hle⟩
        rw [if_neg (by simp; omega), if_neg (by simp), int64_of_small _ (by omega)]
        simp
      · intro h
        have : ¬ (List.foldl (fun a b => 10 * a + (b - 48)) 0 s1 ≤ 2 ^ 63 - 1) :=
          fun hle => h ⟨hne, hdig, hle⟩
        rw [if_pos (by simp; omega)]
        simp
  · constructor
    · intro h
      exfalso
      apply hn
      refine ⟨h.1, h.2.1, ?_⟩
      have := h.2.2
      rw [maxUint64_eq]
      split at this <;> omega
    · intro _
      rcases hr with hr | hr
      · rw [hr]
        simp
      · rw [hr]
        simp only [maxUint64_eq]
        by_cases hc : c = 45
        · simp [hc]
        · simp [hc]

end strconv


/-- A character below 128 is encoded as itself. -/
theorem utf8_ascii (c : Char) (h : c.toNat < 128) : utf8 c = [c.toNat] := by
  simp [utf8, h]

/-- The first byte of an encoding is the character itself or at least 192. -/
theorem utf8_head (c : Char) :
    ∃ b t, utf8 c = b :: t ∧ ((c.toNat < 128 ∧ b = c.toNat ∧ t = []) ∨ 192 ≤ b) := by
  unfold utf8
  simp only []
  split
  · exact ⟨_, _, rfl, Or.inl ⟨by assumption, rfl, rfl⟩⟩
  · split
    · exact ⟨_, _, rfl, Or.inr (by omega)⟩
    · split
      · exact ⟨_, _, rfl, Or.inr (by omega)⟩
      · exact ⟨_, _, rfl, Or.inr (by omega)⟩

/-- Decimal digits by code point. -/
theorem isDecimalDigit_iff (c : Char) : isDecimalDigit c = true ↔ 48 ≤ c.toNat ∧ c.toNat ≤ 57 := by
  simp [isDecimalDigit]

/-- A character is determined by its code point. -/
theorem eq_ofNat_of_toNat (c : Char) (n : Nat) (h : c.toNat = n) : c = Char.ofNat n := by
  rw [← h, Char.ofNat_toNat]

/-- The bytes of a text are all digit bytes exactly when its characters are all
decimal digits, and then the bytes are the code points. -/
theorem bytes_digits (cs : List Char) :
    ((∀ b ∈ cs.flatMap utf8, 48 ≤ b ∧ b ≤ 57) ↔ cs.all isDecimalDigit = true) ∧
    (cs.all isDecimalDigit = true → cs.flatMap utf8 = cs.map Char.toNat) := by
  induction cs with
  | nil => simp
  | cons c cs ih =>
    obtain ⟨b, t, hbt, hb⟩ := utf8_head c
    constructor
    · constructor
      · intro h
        have hb1 : 48 ≤ b ∧ b ≤ 57 := h b (by simp [hbt])
        rcases hb with ⟨_, hbc, _⟩ | hb
        · simp only [List.all_cons, Bool.and_eq_true]
          refine ⟨(isDecimalDigit_iff c).2 (by omega), ih.1.1 ?_⟩
          intro x hx
          exact h x (by simp only [List.flatMap_cons, List.mem_append]; exact Or.inr hx)
        · omega
      · intro h
        simp only [List.all_cons, Bool.and_eq_true] at h
        have hc := (isDecimalDigit_iff c).1 h.1
        rw [List.flatMap_cons, utf8_ascii c (by omega)]
        intro x hx
        rcases List.mem_append.1 hx with hx | hx
        · simp at hx; omega
        · exact ih.1.2 h.2 x hx
    · intro h
      simp only [List.all_cons, Bool.and_eq_true] at h
      have hc := (isDecimalDigit_iff c).1 h.1
      rw [List.flatMap_cons, utf8_ascii c (by omega), ih.2 h.2]
      rfl

/-- Only the empty text has no bytes. -/
theorem flatMap_utf8_eq_nil (cs : List Char) : cs.flatMap utf8 = [] ↔ cs = [] := by
  cases cs with
  | nil => simp
  | cons c cs =>
    obtain ⟨b, t, hbt, _⟩ := utf8_head c
    simp [hbt]

/-- The bytes of a text are a non-empty run of digit bytes exactly when the text is a non-empty run of decimal digits, and then both denote the same number. -/
theorem bytes_decimal (cs : List Char) :
    ((cs.flatMap utf8 ≠ [] ∧ ∀ b ∈ cs.flatMap utf8, 48 ≤ b ∧ b ≤ 57) ↔ isDecimal cs = true) ∧
    (isDecimal cs = true →
      (cs.flatMap utf8).foldl (fun a b => 10 * a + (b - 48)) 0 = decimalValue cs) := by
  have h := bytes_digits cs
  constructor
  · rw [h.1, Ne, flatMap_utf8_eq_nil]
    simp [isDecimal]
  · intro hd
    have hall : cs.all isDecimalDigit = true := by
      simp only [isDecimal, Bool.and_eq_true] at hd
      exact hd.2
    rw [h.2 hall, List.foldl_map]
    rfl

/-- The function `strconv.ParseInt(s, 10, 64)` accepts exactly the texts that
denote a base-10 integer in the signed 64-bit range, and returns that integer. -/
theorem ParseInt_spec (s : String) :
    (∀ v, base10Int64 s = some v → strconv.ParseInt s = (v, none)) ∧
    (base10Int64 s = none → (strconv.ParseInt s).2 ≠ none) := by
  unfold strconv.ParseInt bytes base10Int64
  cases hs : s.toList with
  | nil =>
    simp [strconv.parseIntBytes]
  | cons c ds =>
    simp only []
    by_cases hm : c = '-'
    · subst hm
      have hb : ['-'].flatMap utf8 = [45] := by decide
      have hl : ('-' :: ds).flatMap utf8 = 45 :: ds.flatMap utf8 := by
        rw [List.flatMap_cons]; rfl
      rw [hl, if_pos rfl]
      have hspec := strconv.parseIntBytes_spec 45 (ds.flatMap utf8)
      simp only [show ¬ ((45 : Nat) = 43) by decide, if_false, if_true] at hspec
      have hbd := bytes_decimal ds
      constructor
      · intro v hv
        split at hv
        · rename_i hcond
          have hv2 : v = - (decimalValue ds : Int) := by simpa using hv.symm
          have hne := (hbd.1.2 hcond.1)
          have hval := hbd.2 hcond.1
          rw [hspec.1 ⟨hne.1, hne.2, by rw [hval]; exact hcond.2⟩, hval, hv2]
        · simp at hv
      · intro hnone
        split at hnone
        · simp at hnone
        · rename_i hcond
          apply hspec.2
          rintro ⟨h1, h2, h3⟩
          have hdec := hbd.1.1 ⟨h1, h2⟩
          exact hcond ⟨hdec, by rw [← hbd.2 hdec]; exact h3⟩
    · rw [if_neg hm]
      by_cases hp : c = '+'
      · subst hp
        have hl : ('+' :: ds).flatMap utf8 = 43 :: ds.flatMap utf8 := by
          rw [List.flatMap_cons]; rfl
        rw [hl, if_pos rfl]
        have hspec := strconv.parseIntBytes_spec 43 (ds.flatMap utf8)
        simp only [show ¬ ((43 : Nat) = 45) by decide, if_false, if_true] at hspec
        have hbd := bytes_decimal ds
        constructor
        · intro v hv
          split at hv
          · rename_i hcond
            have hv2 : v = (decimalValue ds : Int) := by simpa using hv.symm
            have hne := (hbd.1.2 hcond.1)
            have hval := hbd.2 hcond.1
            rw [hspec.1 ⟨hne.1, hne.2, by rw [hval]; have := hcond.2; omega⟩, hval, hv2]
          · simp at hv
        · intro hnone
          split at hnone
          · simp at hnone
          · rename_i hcond
            apply hspec.2
            rintro ⟨h1, h2, h3⟩
            have hdec := hbd.1.1 ⟨h1, h2⟩
            exact hcond ⟨hdec, by rw [← hbd.2 hdec]; omega⟩
      · rw [if_neg hp]
        obtain ⟨b, t, hbt, hb⟩ := utf8_head c
        have hl : (c :: ds).flatMap utf8 = b :: (t ++ ds.flatMap utf8) := by
          rw [List.flatMap_cons, hbt]; rfl
        have hb43 : b ≠ 43 := by
          rcases hb with ⟨h1, h2, _⟩ | hb
          · intro h
            apply hp
            exact eq_ofNat_of_toNat c 43 (by omega)
          · omega
        have hb45 : b ≠ 45 := by
          rcases hb with ⟨h1, h2, _⟩ | hb
          · intro h
            apply hm
            exact eq_ofNat_of_toNat c 45 (by omega)
          · omega
        have hspec := strconv.parseIntBytes_spec b (t ++ ds.flatMap utf8)
        simp only [hb43, hb45, if_false] at hspec
        rw [← hl] at hspec
        have hbd := bytes_decimal (c :: ds)
        constructor
        · intro v hv
          split at hv
          · rename_i hcond
            have hv2 : v = (decimalValue (c :: ds) : Int) := by simpa using hv.symm
            have hne := (hbd.1.2 hcond.1)
            have hval := hbd.2 hcond.1
            rw [hspec.1 ⟨hne.1, hne.2, by rw [hval]; have := hcond.2; omega⟩, hval, hv2]
          · simp at hv
        · intro hnone
          split at hnone
          · simp at hnone
          · rename_i hcond
            apply hspec.2
            rintro ⟨h1, h2, h3⟩
            have hdec := hbd.1.1 ⟨h1, h2⟩
            exact hcond ⟨hdec, by rw [← hbd.2 hdec]; omega⟩


/-! ## Validate -/

namespace expense

/-- C1. A record whose amount is `<= 0` fails validation with `ErrAmountInvalid`,
whose message is "amount must be greater than zero", whatever its other fields
are; with an empty title too, the error is the amount error and not the title
error. -/
theorem Validate_amount_le_zero (e : Expense) (h : e.Amount.le Float64.zero = true) :
    e.Validate = some ErrAmountInvalid ∧
    ErrAmountInvalid.Error = "amount must be greater than zero" ∧
    e.Validate ≠ some ErrTitleEmpty := by
  have hv : e.Validate = some ErrAmountInvalid := by simp [Expense.Validate, h]
  refine ⟨hv, rfl, ?_⟩
  rw [hv]
  decide

/-- A concrete instance: the record of the test (amount -1), and a record with amount 0 and an empty title. -/
theorem Validate_amount_le_zero_witness :
    (Float64.negOne.le Float64.zero = true ∧ Float64.zero.le Float64.zero = true) ∧
    ((⟨1, Float64.negOne, "Hot Tea", "Buy tea in the market",
        some ["drinks", "juices"]⟩ : Expense).Validate = some ErrAmountInvalid ∧
      ErrAmountInvalid.Error = "amount must be greater than zero" ∧
      (⟨1, Float64.negOne, "Hot Tea", "Buy tea in the market",
        some ["drinks", "juices"]⟩ : Expense).Validate ≠ some ErrTitleEmpty) ∧
    ((⟨0, Float64.zero, "", "", none⟩ : Expense).Validate = some ErrAmountInvalid ∧
      ErrAmountInvalid.Error = "amount must be greater than zero" ∧
      (⟨0, Float64.zero, "", "", none⟩ : Expense).Validate ≠ some ErrTitleEmpty) :=
  ⟨by decide,
   Validate_amount_le_zero ⟨1, Float64.negOne, "Hot Tea", "Buy tea in the market",
     some ["drinks", "juices"]⟩ (by decide),
   Validate_amount_le_zero ⟨0, Float64.zero, "", "", none⟩ (by decide)⟩

/-- C2. A record whose amount is `> 0` and whose title is the empty string fails
validation with `ErrTitleEmpty`, whose message is "empty title", whatever its id,
note and tags are. -/
theorem Validate_title_empty (e : Expense) (ha : e.Amount.gt Float64.zero = true)
    (ht : e.Title = "") :
    e.Validate = some ErrTitleEmpty ∧ ErrTitleEmpty.Error = "empty title" := by
  have hle := Float64.le_zero_of_gt_zero e.Amount ha
  refine ⟨?_, rfl⟩
  simp [Expense.Validate, hle, ht]

/-- A concrete instance: the record of the test, amount 10 and an empty title. -/
theorem Validate_title_empty_witness :
    (Float64.ten.gt Float64.zero = true ∧ ("" : String) = "") ∧
    ((⟨1, Float64.ten, "", "Buy tea in the market",
        some ["drinks", "juices"]⟩ : Expense).Validate = some ErrTitleEmpty ∧
      ErrTitleEmpty.Error = "empty title") :=
  ⟨by decide,
   Validate_title_empty ⟨1, Float64.ten, "", "Buy tea in the market",
     some ["drinks", "juices"]⟩ (by decide) rfl⟩

/-- C3. A record whose amount is `> 0` and whose title is not empty passes
validation (nil error), whatever its id, note and tags are. -/
theorem Validate_ok (e : Expense) (ha : e.Amount.gt Float64.zero = true)
    (ht : e.Title ≠ "") :
    e.Validate = none := by
  have hle := Float64.le_zero_of_gt_zero e.Amount ha
  simp [Expense.Validate, hle, ht]

/-- A concrete instance: amount 10 and a title, with an empty note and nil or empty tags. -/
theorem Validate_ok_witness :
    (Float64.ten.gt Float64.zero = true ∧ ("Hot Tea" : String) ≠ "") ∧
    (⟨1, Float64.ten, "Hot Tea", "", none⟩ : Expense).Validate = none ∧
    (⟨7, Float64.ten, "Hot Tea", "", some []⟩ : Expense).Validate = none :=
  ⟨by decide,
   Validate_ok ⟨1, Float64.ten, "Hot Tea", "", none⟩ (by decide) (by decide),
   Validate_ok ⟨7, Float64.ten, "Hot Tea", "", some []⟩ (by decide) (by decide)⟩

/-- C4, at the failing input. A record whose amount is a NaN and whose title is
not empty passes validation, although its amount is not `> 0`: `NaN <= 0` is
false, so the amount rule does not fire. -/
theorem Validate_accepts_nan :
    (⟨0, Float64.nan, "x", "", none⟩ : Expense).Validate = none ∧
    Float64.nan.gt Float64.zero = false := by
  decide

/-- What validation does enforce: a record that passes has a title that is not
empty and an amount that is not `<= 0`, so an amount that is `> 0` or a NaN. -/
theorem Validate_none_imp (e : Expense) (h : e.Validate = none) :
    e.Title ≠ "" ∧ e.Amount.le Float64.zero = false ∧
    (e.Amount.gt Float64.zero = true ∨ e.Amount.isNaN = true) := by
  unfold Expense.Validate at h
  split at h
  · simp at h
  · rename_i hle
    split at h
    · simp at h
    · rename_i ht
      refine ⟨by simpa using ht, by simpa using hle, ?_⟩
      cases hn : e.Amount.isNaN
      · left
        rw [Float64.gt_zero_iff]
        refine ⟨hn, ?_⟩
        have : ¬ (e.Amount.isNaN = false ∧ e.Amount.key ≤ 0) := by
          rw [← Float64.le_zero_iff]; simpa using hle
        simp [hn] at this
        omega
      · right; rfl

end expense

/-! ## Service.Update and Service.GetByID -/

namespace expense

/-- C5. When the fetch for `e.ID` returns the stored record `f` and the update
statement runs, `Service.Update` returns, with a nil error, the record with the
id of `f` and the amount, title, note and tags of `e`; the statements issued are
the select and then the update whose arguments are the fields of that merged
record, and the rows with that id now hold it. -/
theorem Update_merges (s : Service) (e f : Expense)
    (hfetch : (s.db.QueryRowContext (.selectByID e.ID)).1 = .ok f)
    (hupd : s.db.fault (.update e.Amount e.Title e.Note e.Tags f.ID) = none) :
    (s.Update e).1 = .ok ⟨f.ID, e.Amount, e.Title, e.Note, e.Tags⟩ ∧
    (s.Update e).2.db.log =
      s.db.log ++ [.selectByID e.ID, .update e.Amount e.Title e.Note e.Tags f.ID] ∧
    (s.Update e).2.db.rows =
      s.db.rows.map (fun r =>
        if r.ID == f.ID then ⟨f.ID, e.Amount, e.Title, e.Note, e.Tags⟩ else r) := by
  have hget : (getExpenseByID s.db e.ID).1 = .ok f := by
    rw [getExpenseByID_fst, hfetch]
  rw [Update_ok s e f hget, updateExpense_eq]
  simp only []
  rw [ExecContext_update _ _ _ _ _ _ (by simpa using hupd)]
  refine ⟨rfl, by simp, ?_⟩
  simp only []
  apply List.map_congr_left
  intro r _
  by_cases hr : r.ID = f.ID
  · simp [hr]
  · simp [hr]

/-- A concrete instance: updating row 2 of the example store. -/
theorem Update_merges_witness :
    (((⟨exampleDB⟩ : Service).db.QueryRowContext (.selectByID 2)).1 =
        .ok ⟨2, Float64.one, "Tea", "cup", none⟩ ∧
      (⟨exampleDB⟩ : Service).db.fault
        (.update Float64.seventyFive "Halo Kitty" "buy tea" (some ["drinks", "juices"]) 2) =
          none) ∧
    ((⟨exampleDB⟩ : Service).Update
        ⟨2, Float64.seventyFive, "Halo Kitty", "buy tea", some ["drinks", "juices"]⟩).1 =
      .ok ⟨2, Float64.seventyFive, "Halo Kitty", "buy tea", some ["drinks", "juices"]⟩ ∧
    ((⟨exampleDB⟩ : Service).Update
        ⟨2, Float64.seventyFive, "Halo Kitty", "buy tea", some ["drinks", "juices"]⟩).2.db.rows =
      [⟨1, Float64.ten, "Ice Milk", "", some ["drinks"]⟩,
       ⟨2, Float64.seventyFive, "Halo Kitty", "buy tea", some ["drinks", "juices"]⟩] :=
  have h := Update_merges ⟨exampleDB⟩
    ⟨2, Float64.seventyFive, "Halo Kitty", "buy tea", some ["drinks", "juices"]⟩
    ⟨2, Float64.one, "Tea", "cup", none⟩ (by decide) rfl
  ⟨⟨by decide, rfl⟩, h.1, h.2.2.trans (by decide)⟩

/-- C6. When no stored row has the id of the input record, `Service.Update`
returns a nil record with an error, the only statement it issues is the select
(the update statement is not issued) and the rows of the store are the same after
the call as before it; when the select runs, the error is `ErrNotFound` wrapped
with the context of the operation, and the is-a check against `ErrNotFound`
holds for it. -/
theorem Update_not_found (s : Service) (e : Expense)
    (hno : ∀ r ∈ s.db.rows, r.ID ≠ e.ID) :
    (∃ err, (s.Update e).1 = .error err) ∧
    (s.Update e).2.db.rows = s.db.rows ∧
    (s.Update e).2.db.log = s.db.log ++ [.selectByID e.ID] ∧
    (s.db.fault (.selectByID e.ID) = none →
      (s.Update e).1 =
        .error (fmt.Errorf ("getExpenseByID(" ++ toString e.ID ++ "): ") ErrNotFound) ∧
      errors.Is (some (fmt.Errorf ("getExpenseByID(" ++ toString e.ID ++ "): ") ErrNotFound))
        ErrNotFound = true) := by
  obtain ⟨d, hd⟩ := QueryRowContext_select_error s.db e.ID hno
  have hget : ∃ err, (getExpenseByID s.db e.ID).1 = .error err := by
    rw [getExpenseByID_fst, hd]
    simp only []
    split
    · exact ⟨_, rfl⟩
    · exact ⟨_, rfl⟩
  obtain ⟨err, herr⟩ := hget
  refine ⟨⟨_, by rw [Update_error s e err herr]⟩, by rw [Update_error s e err herr],
    by rw [Update_error s e err herr], ?_⟩
  intro hrun
  have h0 := getExpenseByID_no_rows s.db e.ID (QueryRowContext_select_none s.db e.ID hrun hno)
  refine ⟨by rw [Update_error s e _ h0], ?_⟩
  rw [ErrNotFound, is_Errorf]
  simp [errors.Is, errors.is]

/-- A concrete instance: id 5 has no row in the example store. -/
theorem Update_not_found_witness :
    (∀ r ∈ (⟨exampleDB⟩ : Service).db.rows, r.ID ≠ (⟨5, Float64.ten, "Cake", "", none⟩ : Expense).ID) ∧
    exampleDB.fault (.selectByID 5) = none ∧
    ((⟨exampleDB⟩ : Service).Update ⟨5, Float64.ten, "Cake", "", none⟩).1 =
      .error (.wrapError "getExpenseByID(5): not found" ErrNotFound) ∧
    ((⟨exampleDB⟩ : Service).Update ⟨5, Float64.ten, "Cake", "", none⟩).2.db.rows =
      exampleDB.rows ∧
    ((⟨exampleDB⟩ : Service).Update ⟨5, Float64.ten, "Cake", "", none⟩).2.db.log =
      [.selectByID 5] :=
  have hno : ∀ r ∈ (⟨exampleDB⟩ : Service).db.rows,
      r.ID ≠ (⟨5, Float64.ten, "Cake", "", none⟩ : Expense).ID := by decide
  have h := Update_not_found ⟨exampleDB⟩ ⟨5, Float64.ten, "Cake", "", none⟩ hno
  ⟨hno, rfl, (h.2.2.2 rfl).1.trans (by decide), h.2.1, h.2.2.1⟩

/-- C7. When the fetch for an id fails with the error `d`, both `Service.GetByID`
and `Service.Update` return an error; when `d` is `sql.ErrNoRows` (zero rows),
the is-a check of that error against `ErrNotFound` holds; when `d` is neither
`sql.ErrNoRows` nor `ErrNotFound` (by the is-a check), the is-a check against
`ErrNotFound` fails and the error returned wraps `d` itself. -/
theorem not_found_is_exact (s : Service) (e : Expense) (d : GoError)
    (hfail : (s.db.QueryRowContext (.selectByID e.ID)).1 = .error d) :
    ∃ g u, (s.GetByID e.ID).1 = .error g ∧ (s.Update e).1 = .error u ∧
      (d = sql.ErrNoRows →
        errors.Is (some g) ErrNotFound = true ∧ errors.Is (some u) ErrNotFound = true) ∧
      (errors.Is (some d) sql.ErrNoRows = false → errors.Is (some d) ErrNotFound = false →
        errors.Is (some g) ErrNotFound = false ∧ errors.Is (some u) ErrNotFound = false ∧
        errors.Unwrap g = some d ∧ errors.Unwrap u = some d) := by
  cases hd : errors.Is (some d) sql.ErrNoRows with
  | true =>
    have h0 : (getExpenseByID s.db e.ID).1 = .error ErrNotFound := by
      rw [getExpenseByID_fst, hfail]
      simp [hd]
    refine ⟨_, _, by rw [GetByID_error s e.ID _ h0], by rw [Update_error s e _ h0], ?_, ?_⟩
    · intro _
      rw [ErrNotFound, is_Errorf]
      simp [errors.Is, errors.is]
    · intro h
      simp at h
  | false =>
    have h0 := getExpenseByID_driver_error s.db e.ID d hfail hd
    refine ⟨_, _, by rw [GetByID_error s e.ID _ h0], by rw [Update_error s e _ h0], ?_, ?_⟩
    · intro hd2
      rw [hd2] at hd
      simp [errors.Is, errors.is, sql.ErrNoRows] at hd
    · intro _ hnf
      rw [ErrNotFound, is_Errorf] at *
      exact ⟨hnf, hnf, rfl, rfl⟩

/-- A concrete instance: zero rows on the example store, and a driver that refuses the connection. -/
theorem not_found_is_exact_witness :
    (((⟨exampleDB⟩ : Service).db.QueryRowContext (.selectByID 5)).1 = .error sql.ErrNoRows ∧
      ((⟨brokenDB (.errorString 9 "connection refused")⟩ : Service).db.QueryRowContext
        (.selectByID 1)).1 = .error (.errorString 9 "connection refused")) ∧
    (∃ g u, ((⟨exampleDB⟩ : Service).GetByID 5).1 = .error g ∧
      ((⟨exampleDB⟩ : Service).Update ⟨5, Float64.ten, "Cake", "", none⟩).1 = .error u ∧
      errors.Is (some g) ErrNotFound = true ∧ errors.Is (some u) ErrNotFound = true) ∧
    (∃ g u, ((⟨brokenDB (.errorString 9 "connection refused")⟩ : Service).GetByID 1).1 = .error g ∧
      ((⟨brokenDB (.errorString 9 "connection refused")⟩ : Service).Update
        ⟨1, Float64.ten, "Cake", "", none⟩).1 = .error u ∧
      errors.Is (some g) ErrNotFound = false ∧ errors.Is (some u) ErrNotFound = false ∧
      errors.Unwrap g = some (.errorString 9 "connection refused") ∧
      errors.Unwrap u = some (.errorString 9 "connection refused")) :=
  have h1 : ((⟨exampleDB⟩ : Service).db.QueryRowContext
      (.selectByID (⟨5, Float64.ten, "Cake", "", none⟩ : Expense).ID)).1 =
        .error sql.ErrNoRows := by decide
  have h2 : ((⟨brokenDB (.errorString 9 "connection refused")⟩ : Service).db.QueryRowContext
      (.selectByID (⟨1, Float64.ten, "Cake", "", none⟩ : Expense).ID)).1 =
        .error (.errorString 9 "connection refused") := by decide
  ⟨⟨h1, h2⟩,
   (not_found_is_exact ⟨exampleDB⟩ ⟨5, Float64.ten, "Cake", "", none⟩ sql.ErrNoRows h1).elim
     (fun g hg => hg.elim (fun u hu => ⟨g, u, hu.1, hu.2.1, hu.2.2.1 rfl⟩)),
   (not_found_is_exact ⟨brokenDB (.errorString 9 "connection refused")⟩
       ⟨1, Float64.ten, "Cake", "", none⟩ (.errorString 9 "connection refused") h2).elim
     (fun g hg => hg.elim (fun u hu =>
       ⟨g, u, hu.1, hu.2.1, hu.2.2.2 (by decide) (by decide)⟩))⟩

end expense

/-! ## Handlers -/

namespace cmd

open expense echo

/-- The two ways validation fails. -/
theorem Validate_some (e : Expense) (err : GoError) (h : e.Validate = some err) :
    (e.Amount.le Float64.zero = true ∧ err = ErrAmountInvalid) ∨
    (e.Amount.le Float64.zero = false ∧ e.Title = "" ∧ err = ErrTitleEmpty) := by
  unfold Expense.Validate at h
  split at h
  · rename_i hle
    left
    exact ⟨hle, by simpa using h.symm⟩
  · rename_i hle
    split at h
    · rename_i ht
      right
      exact ⟨by simpa using hle, by simpa using ht, by simpa using h.symm⟩
    · simp at h

/-- C8. The id path parameter is accepted by `strconv.ParseInt` exactly when it
denotes a base-10 integer in the signed 64-bit range. For every other value
`GetExpenseByID` and `UpdateExpense` write status 400 with the map of code 400
and message "invalid params", whose JSON document is
`{"code":400,"message":"invalid params"}`, and leave the service and the store
untouched; for a value that is such an integer neither handler writes that
response. -/
theorem id_param_valid_iff (h : handler) (c : Context) :
    ((strconv.ParseInt (c.Param "id")).2 = none ↔ (base10Int64 (c.Param "id")).isSome = true) ∧
    (base10Int64 (c.Param "id") = none →
      h.GetExpenseByID c = (some ⟨400, .map ⟨400, "invalid params"⟩⟩, h) ∧
      h.UpdateExpense c = (some ⟨400, .map ⟨400, "invalid params"⟩⟩, h)) ∧
    ((base10Int64 (c.Param "id")).isSome = true →
      (h.GetExpenseByID c).1 ≠ some ⟨400, .map ⟨400, "invalid params"⟩⟩ ∧
      (h.UpdateExpense c).1 ≠ some ⟨400, .map ⟨400, "invalid params"⟩⟩) ∧
    Map.json ⟨400, "invalid params"⟩ =
      "\x7b\"code\":400,\"message\":\"invalid params\"\x7d" := by
  have hspec := ParseInt_spec (c.Param "id")
  refine ⟨?_, ?_, ?_, by decide⟩
  · cases hb : base10Int64 (c.Param "id") with
    | none => simpa using hspec.2 hb
    | some v => simp [hspec.1 v hb]
  · intro hb
    have herr := hspec.2 hb
    rcases hp : strconv.ParseInt (c.Param "id") with ⟨v, e⟩
    rw [hp] at herr
    cases e with
    | none => exact absurd rfl herr
    | some k =>
      unfold handler.GetExpenseByID handler.UpdateExpense
      rw [hp]
      exact ⟨rfl, rfl⟩
  · intro hb
    obtain ⟨v, hv⟩ := Option.isSome_iff_exists.1 hb
    have hp := hspec.1 v hv
    constructor
    · unfold handler.GetExpenseByID
      rw [hp]
      simp only []
      rcases hg : h.expenseSvc.GetByID v with ⟨r, svc⟩
      cases r with
      | error err =>
        simp only []
        split
        · cases hu : unwrapError err <;> simp
        · simp
      | ok e =>
        simp only []
        rcases answer_JSON_expense_cases 200 e with h200 | h500
        · rw [h200]; simp
        · rw [h500]; simp
    · unfold handler.UpdateExpense
      rw [hp]
      simp only []
      cases hbind : c.Bind with
      | none => simp
      | some exp =>
        simp only []
        cases hval : exp.Validate with
        | some err =>
          rcases Validate_some exp err hval with ⟨_, rfl⟩ | ⟨_, _, rfl⟩
          · simp [ErrAmountInvalid, GoError.Error]
          · simp [ErrTitleEmpty, GoError.Error]
        | none =>
          simp only []
          rcases hg : h.expenseSvc.Update { exp with ID := v } with ⟨r, svc⟩
          cases r with
          | error err =>
            simp only []
            split
            · cases hu : unwrapError err <;> simp
            · simp
          | ok e =>
            simp only []
            rcases answer_JSON_expense_cases 200 e with h200 | h500
            · rw [h200]; simp
            · rw [h500]; simp

/-- A concrete instance: the parameters A, the empty string and 2^63 are refused, 2^63 - 1 is not. -/
theorem id_param_valid_iff_witness :
    (base10Int64 "A" = none ∧ base10Int64 "" = none ∧
      base10Int64 "9223372036854775808" = none ∧
      (base10Int64 "9223372036854775807").isSome = true) ∧
    (exampleHandler.GetExpenseByID (exampleContext "A" none)).1 =
      some ⟨400, .map ⟨400, "invalid params"⟩⟩ ∧
    (exampleHandler.UpdateExpense (exampleContext "" none)).1 =
      some ⟨400, .map ⟨400, "invalid params"⟩⟩ ∧
    (exampleHandler.UpdateExpense (exampleContext "9223372036854775808" none)).2 =
      exampleHandler ∧
    (exampleHandler.GetExpenseByID (exampleContext "9223372036854775807" none)).1 ≠
      some ⟨400, .map ⟨400, "invalid params"⟩⟩ :=
  ⟨by decide,
   congrArg Prod.fst
     ((id_param_valid_iff exampleHandler (exampleContext "A" none)).2.1 (by decide)).1,
   congrArg Prod.fst
     ((id_param_valid_iff exampleHandler (exampleContext "" none)).2.1 (by decide)).2,
   congrArg Prod.snd
     ((id_param_valid_iff exampleHandler
       (exampleContext "9223372036854775808" none)).2.1 (by decide)).2,
   ((id_param_valid_iff exampleHandler
       (exampleContext "9223372036854775807" none)).2.2.1 (by decide)).1⟩

/-- C9. When the body binds to a record that fails `Validate` with the error
`err`, `SaveExpense` writes status 400 with the map of code 400 and message
`err.Error()` and leaves the service and the store untouched, and so does
`UpdateExpense` when the id parameter is valid; the message is "amount must be
greater than zero" when the amount is `<= 0` and "empty title" otherwise, and the
JSON document is `{"code":400,"message":m}` with that message `m`. -/
theorem validation_failure (h : handler) (c : Context) (exp : Expense) (err : GoError)
    (hbind : c.Bind = some exp) (hval : exp.Validate = some err) :
    h.SaveExpense c = (⟨400, .map ⟨400, err.Error⟩⟩, h) ∧
    ((base10Int64 (c.Param "id")).isSome = true →
      h.UpdateExpense c = (some ⟨400, .map ⟨400, err.Error⟩⟩, h)) ∧
    ((exp.Amount.le Float64.zero = true ∧ err.Error = "amount must be greater than zero") ∨
      (exp.Amount.le Float64.zero = false ∧ exp.Title = "" ∧ err.Error = "empty title")) ∧
    Map.json ⟨400, err.Error⟩ =
      "\x7b\"code\":400,\"message\":\"" ++ err.Error ++ "\"\x7d" := by
  refine ⟨?_, ?_, ?_, ?_⟩
  · unfold handler.SaveExpense
    rw [hbind]
    simp only []
    rw [hval]
    rfl
  · intro hb
    obtain ⟨v, hv⟩ := Option.isSome_iff_exists.1 hb
    have hp := (ParseInt_spec (c.Param "id")).1 v hv
    unfold handler.UpdateExpense
    rw [hp]
    simp only []
    rw [hbind]
    simp only []
    rw [hval]
    rfl
  · rcases Validate_some exp err hval with ⟨h1, rfl⟩ | ⟨h1, h2, rfl⟩
    · exact Or.inl ⟨h1, rfl⟩
    · exact Or.inr ⟨h1, h2, rfl⟩
  · rcases Validate_some exp err hval with ⟨_, rfl⟩ | ⟨_, _, rfl⟩
    · decide
    · decide

/-- A concrete instance: a record with amount -1 on SaveExpense, a record with an empty title on UpdateExpense. -/
theorem validation_failure_witness :
    ((exampleContext "1" (some ⟨0, Float64.negOne, "", "", none⟩)).Bind =
        some ⟨0, Float64.negOne, "", "", none⟩ ∧
      (⟨0, Float64.negOne, "", "", none⟩ : Expense).Validate = some ErrAmountInvalid ∧
      (exampleContext "1" (some ⟨0, Float64.ten, "", "n", some []⟩)).Bind =
        some ⟨0, Float64.ten, "", "n", some []⟩ ∧
      (⟨0, Float64.ten, "", "n", some []⟩ : Expense).Validate = some ErrTitleEmpty ∧
      (base10Int64 "1").isSome = true) ∧
    exampleHandler.SaveExpense (exampleContext "1" (some ⟨0, Float64.negOne, "", "", none⟩)) =
      (⟨400, .map ⟨400, "amount must be greater than zero"⟩⟩, exampleHandler) ∧
    exampleHandler.UpdateExpense (exampleContext "1" (some ⟨0, Float64.ten, "", "n", some []⟩)) =
      (some ⟨400, .map ⟨400, "empty title"⟩⟩, exampleHandler) ∧
    Map.json ⟨400, "amount must be greater than zero"⟩ =
      "\x7b\"code\":400,\"message\":\"amount must be greater than zero\"\x7d" ∧
    Map.json ⟨400, "empty title"⟩ = "\x7b\"code\":400,\"message\":\"empty title\"\x7d" :=
  have h1 := validation_failure exampleHandler
    (exampleContext "1" (some ⟨0, Float64.negOne, "", "", none⟩))
    ⟨0, Float64.negOne, "", "", none⟩ ErrAmountInvalid rfl (by decide)
  have h2 := validation_failure exampleHandler
    (exampleContext "1" (some ⟨0, Float64.ten, "", "n", some []⟩))
    ⟨0, Float64.ten, "", "n", some []⟩ ErrTitleEmpty rfl (by decide)
  ⟨⟨rfl, by decide, rfl, by decide, by decide⟩, h1.1, h2.2.1 (by decide), h1.2.2.2, h2.2.2.2⟩

/-- The text of the wrapped error is longer than the text of the sentinel. -/
theorem wrapped_ne_not_found (id : Int) :
    "getExpenseByID(" ++ toString id ++ "): " ++ "not found" ≠ "not found" := by
  intro h
  have := congrArg String.length h
  simp only [String.length_append] at this
  have h1 : "getExpenseByID(".length = 15 := by decide
  have h2 : "not found".length = 9 := by decide
  omega

/-- C10. When the id parameter is a valid integer and the lookup for it yields
no row, `GetExpenseByID` writes status 404 with the map of code 404 and message
"not found", and so does `UpdateExpense` when the body binds and validates; the
JSON document is `{"code":404,"message":"not found"}`. The message is the text of
the sentinel `ErrNotFound`, not the text of the error the service returns, which
is "getExpenseByID(<id>): not found". -/
theorem not_found_response (h : handler) (c : Context) (id : Int)
    (hid : base10Int64 (c.Param "id") = some id)
    (hrow : (h.expenseSvc.db.QueryRowContext (.selectByID id)).1 = .error sql.ErrNoRows) :
    (h.GetExpenseByID c).1 = some ⟨404, .map ⟨404, "not found"⟩⟩ ∧
    (∀ exp, c.Bind = some exp → exp.Validate = none →
      (h.UpdateExpense c).1 = some ⟨404, .map ⟨404, "not found"⟩⟩) ∧
    Map.json ⟨404, "not found"⟩ = "\x7b\"code\":404,\"message\":\"not found\"\x7d" ∧
    ErrNotFound.Error = "not found" ∧
    (∃ err, (h.expenseSvc.GetByID id).1 = .error err ∧
      err.Error = "getExpenseByID(" ++ toString id ++ "): " ++ "not found" ∧
      err.Error ≠ "not found") := by
  have hp := (ParseInt_spec (c.Param "id")).1 id hid
  have h0 := getExpenseByID_no_rows h.expenseSvc.db id hrow
  have hget := GetByID_error h.expenseSvc id _ h0
  have his : errors.Is (some (fmt.Errorf ("getExpenseByID(" ++ toString id ++ "): ")
      ErrNotFound)) ErrNotFound = true := by
    rw [ErrNotFound, is_Errorf]
    simp [errors.Is, errors.is]
  refine ⟨?_, ?_, by decide, rfl, ?_⟩
  · unfold handler.GetExpenseByID
    rw [hp]
    simp only []
    rw [hget]
    simp only []
    rw [if_pos his]
    rfl
  · intro exp hbind hval
    have hupd := Update_error h.expenseSvc { exp with ID := id } _ h0
    unfold handler.UpdateExpense
    rw [hp]
    simp only []
    rw [hbind]
    simp only []
    rw [hval]
    simp only []
    rw [hupd]
    simp only []
    rw [if_pos his]
    rfl
  · refine ⟨fmt.Errorf ("getExpenseByID(" ++ toString id ++ "): ") ErrNotFound,
      by rw [hget], rfl, ?_⟩
    exact wrapped_ne_not_found id

/-- A concrete instance: id 5 has no row in the example store. -/
theorem not_found_response_witness :
    (base10Int64 ((exampleContext "5" (some ⟨0, Float64.ten, "Cake", "", none⟩)).Param "id") =
        some 5 ∧
      (exampleHandler.expenseSvc.db.QueryRowContext (.selectByID 5)).1 =
        .error sql.ErrNoRows ∧
      (⟨0, Float64.ten, "Cake", "", none⟩ : Expense).Validate = none) ∧
    (exampleHandler.GetExpenseByID
        (exampleContext "5" (some ⟨0, Float64.ten, "Cake", "", none⟩))).1 =
      some ⟨404, .map ⟨404, "not found"⟩⟩ ∧
    (exampleHandler.UpdateExpense
        (exampleContext "5" (some ⟨0, Float64.ten, "Cake", "", none⟩))).1 =
      some ⟨404, .map ⟨404, "not found"⟩⟩ ∧
    (exampleHandler.expenseSvc.GetByID 5).1 =
      .error (.wrapError "getExpenseByID(5): not found" ErrNotFound) :=
  have h := not_found_response exampleHandler
    (exampleContext "5" (some ⟨0, Float64.ten, "Cake", "", none⟩)) 5 (by decide) (by decide)
  ⟨⟨by decide, by decide, by decide⟩, h.1, h.2.1 _ rfl (by decide), by decide⟩

end cmd


/-! ## Handlers: internal errors -/

namespace cmd

open expense echo

/-- Any failure of `Service.Save` makes `SaveExpense` write the fixed 500 map. -/
theorem SaveExpense_error (h : handler) (c : Context) (exp : Expense) (e : GoError)
    (hbind : c.Bind = some exp) (hval : exp.Validate = none)
    (hsvc : (h.expenseSvc.Save exp).1 = .error e) :
    (h.SaveExpense c).1 = ⟨500, .map ⟨500, "Internal Server Error: "⟩⟩ := by
  unfold handler.SaveExpense
  rw [hbind]
  simp only []
  rw [hval]
  simp only []
  rcases hs : h.expenseSvc.Save exp with ⟨r, svc⟩
  rw [hs] at hsvc
  simp only [] at hsvc
  subst hsvc
  rfl

/-- Any failure of `Service.List` makes `ListExpenses` write the fixed 500 map. -/
theorem ListExpenses_error (h : handler) (c : Context) (e : GoError)
    (hsvc : h.expenseSvc.List.1 = .error e) :
    (h.ListExpenses c).1 = ⟨500, .map ⟨500, "Internal Server Error"⟩⟩ := by
  unfold handler.ListExpenses
  rcases hs : h.expenseSvc.List with ⟨r, svc⟩
  rw [hs] at hsvc
  simp only [] at hsvc
  subst hsvc
  rfl

/-- A failure of `Service.GetByID` that is not a not-found condition makes
`GetExpenseByID` write the fixed 500 map. -/
theorem GetExpenseByID_error (h : handler) (c : Context) (id : Int) (e : GoError)
    (hid : base10Int64 (c.Param "id") = some id)
    (hsvc : (h.expenseSvc.GetByID id).1 = .error e)
    (hnf : errors.Is (some e) ErrNotFound = false) :
    (h.GetExpenseByID c).1 = some ⟨500, .map ⟨500, "Internal Server Error : "⟩⟩ := by
  have hp := (ParseInt_spec (c.Param "id")).1 id hid
  unfold handler.GetExpenseByID
  rw [hp]
  simp only []
  rcases hs : h.expenseSvc.GetByID id with ⟨r, svc⟩
  rw [hs] at hsvc
  simp only [] at hsvc
  subst hsvc
  simp only []
  rw [if_neg (by simp [hnf])]
  rfl

/-- A failure of `Service.Update` that is not a not-found condition makes
`UpdateExpense` write the fixed 500 map. -/
theorem UpdateExpense_error (h : handler) (c : Context) (id : Int) (exp : Expense)
    (e : GoError) (hid : base10Int64 (c.Param "id") = some id)
    (hbind : c.Bind = some exp) (hval : exp.Validate = none)
    (hsvc : (h.expenseSvc.Update { exp with ID := id }).1 = .error e)
    (hnf : errors.Is (some e) ErrNotFound = false) :
    (h.UpdateExpense c).1 = some ⟨500, .map ⟨500, "Internal Server Error: "⟩⟩ := by
  have hp := (ParseInt_spec (c.Param "id")).1 id hid
  unfold handler.UpdateExpense
  rw [hp]
  simp only []
  rw [hbind]
  simp only []
  rw [hval]
  simp only []
  rcases hs : h.expenseSvc.Update { exp with ID := id } with ⟨r, svc⟩
  rw [hs] at hsvc
  simp only [] at hsvc
  subst hsvc
  simp only []
  rw [if_neg (by simp [hnf])]
  rfl

/-- C11. For each of the four handlers, when the service fails with an error that
is not a not-found condition, the response is status 500 with a map fixed for
that handler, whatever the error is: in two runs on the same request in which
the service fails with two such errors, the responses are equal, and their JSON
documents are the fixed texts shown. -/
theorem internal_error_generic (h1 h2 : handler) (c : Context) :
    (∀ exp e1 e2, c.Bind = some exp → exp.Validate = none →
      (h1.expenseSvc.Save exp).1 = .error e1 → (h2.expenseSvc.Save exp).1 = .error e2 →
      (h1.SaveExpense c).1 = ⟨500, .map ⟨500, "Internal Server Error: "⟩⟩ ∧
      (h2.SaveExpense c).1 = (h1.SaveExpense c).1) ∧
    (∀ e1 e2, h1.expenseSvc.List.1 = .error e1 → h2.expenseSvc.List.1 = .error e2 →
      (h1.ListExpenses c).1 = ⟨500, .map ⟨500, "Internal Server Error"⟩⟩ ∧
      (h2.ListExpenses c).1 = (h1.ListExpenses c).1) ∧
    (∀ id e1 e2, base10Int64 (c.Param "id") = some id →
      (h1.expenseSvc.GetByID id).1 = .error e1 → errors.Is (some e1) ErrNotFound = false →
      (h2.expenseSvc.GetByID id).1 = .error e2 → errors.Is (some e2) ErrNotFound = false →
      (h1.GetExpenseByID c).1 = some ⟨500, .map ⟨500, "Internal Server Error : "⟩⟩ ∧
      (h2.GetExpenseByID c).1 = (h1.GetExpenseByID c).1) ∧
    (∀ id exp e1 e2, base10Int64 (c.Param "id") = some id →
      c.Bind = some exp → exp.Validate = none →
      (h1.expenseSvc.Update { exp with ID := id }).1 = .error e1 →
      errors.Is (some e1) ErrNotFound = false →
      (h2.expenseSvc.Update { exp with ID := id }).1 = .error e2 →
      errors.Is (some e2) ErrNotFound = false →
      (h1.UpdateExpense c).1 = some ⟨500, .map ⟨500, "Internal Server Error: "⟩⟩ ∧
      (h2.UpdateExpense c).1 = (h1.UpdateExpense c).1) ∧
    Map.json ⟨500, "Internal Server Error: "⟩ =
      "\x7b\"code\":500,\"message\":\"Internal Server Error: \"\x7d" ∧
    Map.json ⟨500, "Internal Server Error"⟩ =
      "\x7b\"code\":500,\"message\":\"Internal Server Error\"\x7d" ∧
    Map.json ⟨500, "Internal Server Error : "⟩ =
      "\x7b\"code\":500,\"message\":\"Internal Server Error : \"\x7d" := by
  refine ⟨?_, ?_, ?_, ?_, by decide, by decide, by decide⟩
  · intro exp e1 e2 hb hv hs1 hs2
    rw [SaveExpense_error h1 c exp e1 hb hv hs1, SaveExpense_error h2 c exp e2 hb hv hs2]
    exact ⟨rfl, rfl⟩
  · intro e1 e2 hs1 hs2
    rw [ListExpenses_error h1 c e1 hs1, ListExpenses_error h2 c e2 hs2]
    exact ⟨rfl, rfl⟩
  · intro id e1 e2 hid hs1 hn1 hs2 hn2
    rw [GetExpenseByID_error h1 c id e1 hid hs1 hn1, GetExpenseByID_error h2 c id e2 hid hs2 hn2]
    exact ⟨rfl, rfl⟩
  · intro id exp e1 e2 hid hb hv hs1 hn1 hs2 hn2
    rw [UpdateExpense_error h1 c id exp e1 hid hb hv hs1 hn1,
      UpdateExpense_error h2 c id exp e2 hid hb hv hs2 hn2]
    exact ⟨rfl, rfl⟩

/-- A concrete instance: the same requests against a driver that refuses the
connection and against a driver that reports a timeout. -/
theorem internal_error_generic_witness :
    ((⟨⟨brokenDB (.errorString 9 "connection refused")⟩⟩ : handler).SaveExpense
        (exampleContext "1" (some ⟨0, Float64.ten, "Cake", "", none⟩))).1 =
      ⟨500, .map ⟨500, "Internal Server Error: "⟩⟩ ∧
    ((⟨⟨brokenDB (.errorString 8 "i/o timeout")⟩⟩ : handler).SaveExpense
        (exampleContext "1" (some ⟨0, Float64.ten, "Cake", "", none⟩))).1 =
      ((⟨⟨brokenDB (.errorString 9 "connection refused")⟩⟩ : handler).SaveExpense
        (exampleContext "1" (some ⟨0, Float64.ten, "Cake", "", none⟩))).1 ∧
    ((⟨⟨brokenDB (.errorString 8 "i/o timeout")⟩⟩ : handler).ListExpenses
        (exampleContext "1" none)).1 =
      ((⟨⟨brokenDB (.errorString 9 "connection refused")⟩⟩ : handler).ListExpenses
        (exampleContext "1" none)).1 ∧
    ((⟨⟨brokenDB (.errorString 8 "i/o timeout")⟩⟩ : handler).GetExpenseByID
        (exampleContext "1" none)).1 =
      ((⟨⟨brokenDB (.errorString 9 "connection refused")⟩⟩ : handler).GetExpenseByID
        (exampleContext "1" none)).1 ∧
    ((⟨⟨brokenDB (.errorString 8 "i/o timeout")⟩⟩ : handler).UpdateExpense
        (exampleContext "1" (some ⟨0, Float64.ten, "Cake", "", none⟩))).1 =
      ((⟨⟨brokenDB (.errorString 9 "connection refused")⟩⟩ : handler).UpdateExpense
        (exampleContext "1" (some ⟨0, Float64.ten, "Cake", "", none⟩))).1 :=
  have h := internal_error_generic
    ⟨⟨brokenDB (.errorString 9 "connection refused")⟩⟩
    ⟨⟨brokenDB (.errorString 8 "i/o timeout")⟩⟩
    (exampleContext "1" (some ⟨0, Float64.ten, "Cake", "", none⟩))
  have h0 := internal_error_generic
    ⟨⟨brokenDB (.errorString 9 "connection refused")⟩⟩
    ⟨⟨brokenDB (.errorString 8 "i/o timeout")⟩⟩
    (exampleContext "1" none)
  have hs := h.1 ⟨0, Float64.ten, "Cake", "", none⟩
    (fmt.Errorf "createExpense(): " (.errorString 9 "connection refused"))
    (fmt.Errorf "createExpense(): " (.errorString 8 "i/o timeout"))
    rfl (by decide) (by decide) (by decide)
  ⟨hs.1, hs.2,
   (h0.2.1 (fmt.Errorf "listExpenses(): " (.errorString 9 "connection refused"))
     (fmt.Errorf "listExpenses(): " (.errorString 8 "i/o timeout"))
     (by decide) (by decide)).2,
   (h0.2.2.1 1 (fmt.Errorf "getExpenseByID(1): " (.errorString 9 "connection refused"))
     (fmt.Errorf "getExpenseByID(1): " (.errorString 8 "i/o timeout"))
     (by decide) (by decide) (by decide) (by decide) (by decide)).2,
   (h.2.2.2.1 1 ⟨0, Float64.ten, "Cake", "", none⟩
     (fmt.Errorf "getExpenseByID(1): " (.errorString 9 "connection refused"))
     (fmt.Errorf "getExpenseByID(1): " (.errorString 8 "i/o timeout"))
     (by decide) rfl (by decide) (by decide) (by decide) (by decide) (by decide)).2⟩

end cmd

/-! ## Service.List, Service.Save and the path id -/

namespace expense

/-- The loop appends the scanned rows, in order, to the slice it starts from. -/
theorem listLoop_eq (rows : List Expense) : ∀ acc : Option (List Expense),
    listLoop rows acc = .ok (some (acc.getD [] ++ rows)) ∨ (rows = [] ∧ listLoop rows acc = .ok acc) := by
  induction rows with
  | nil => intro acc; right; exact ⟨rfl, rfl⟩
  | cons r rs ih =>
    intro acc
    left
    unfold listLoop
    simp only [scanExpense]
    rcases ih (some (acc.getD [] ++ [⟨r.ID, r.Amount, r.Title, r.Note, r.Tags⟩])) with h | ⟨h1, h2⟩
    · rw [h]; simp
    · rw [h2, h1]

/-- Started from the empty slice of `make`, the loop returns the rows as a slice
that is not nil. -/
theorem listLoop_make (rows : List Expense) : listLoop rows (some []) = .ok (some rows) := by
  rcases listLoop_eq rows (some []) with h | ⟨h1, h2⟩
  · simpa using h
  · rw [h2, h1]

/-- What `Service.List` returns when the query succeeds. -/
theorem List_ok (s : Service) (rows : List Expense)
    (hq : (s.db.QueryContext .selectAll).1 = .ok rows) :
    s.List.1 = .ok (some rows) := by
  unfold Service.List listExpenses
  rcases hs : s.db.QueryContext .selectAll with ⟨r, db1⟩
  rw [hs] at hq
  simp only [] at hq
  subst hq
  simp only [listLoop_make]

/-- The rows a select of all rows returns are the rows of the table, reordered. -/
theorem QueryContext_selectAll_perm (db : DB) (rows : List Expense)
    (hq : (db.QueryContext .selectAll).1 = .ok rows) : rows.Perm db.rows := by
  unfold DB.QueryContext DB.run at hq
  cases hf : db.fault .selectAll with
  | some err => simp [hf] at hq
  | none =>
    simp only [hf] at hq
    have : rows = db.rows.insertionSort (fun a b => b.ID ≤ a.ID) := by
      simpa using hq.symm
    rw [this]
    exact List.perm_insertionSort _ _

end expense

namespace cmd

open expense echo

/-- What `ListExpenses` answers when the query succeeds: the answer to `c.JSON`
on status 200 and the slice of the rows. -/
theorem ListExpenses_ok (h : handler) (c : Context) (rows : List Expense)
    (hq : (h.expenseSvc.db.QueryContext .selectAll).1 = .ok rows) :
    (h.ListExpenses c).1 = answer (JSON 200 (.expenses (some rows))) := by
  have hl := List_ok h.expenseSvc rows hq
  unfold handler.ListExpenses
  rcases hs : h.expenseSvc.List with ⟨r, svc⟩
  rw [hs] at hl
  simp only [] at hl
  subst hl
  rfl

/-- C13. When the query of `listExpenses` succeeds with the rows `rows`,
`Service.List` returns, with a nil error, a slice that is not nil and holds
exactly these rows, one element per row of the table; when the amounts of the
rows are finite, `ListExpenses` answers status 200 with that slice. With zero rows
the slice is empty and not nil, `ListExpenses` answers status 200 with it, and its
JSON document is `[]`, not `null`, whatever the text of an element is. -/
theorem List_one_per_row (h : handler) (c : Context) (rows : List Expense)
    (hq : (h.expenseSvc.db.QueryContext .selectAll).1 = .ok rows) :
    h.expenseSvc.List.1 = .ok (some rows) ∧
    ((∀ r ∈ rows, r.Amount.isFinite = true) →
      (h.ListExpenses c).1 = ⟨200, .expenses (some rows)⟩) ∧
    rows.Perm h.expenseSvc.db.rows ∧ rows.length = h.expenseSvc.db.rows.length ∧
    (h.expenseSvc.db.rows = [] →
      h.expenseSvc.List.1 = .ok (some []) ∧
      (h.ListExpenses c).1 = ⟨200, .expenses (some [])⟩ ∧
      ∀ enc : Expense → String,
        json.encodeSlice enc (some rows) = "[]" ∧ json.encodeSlice enc (some rows) ≠ "null") := by
  have hl := List_ok h.expenseSvc rows hq
  have hperm := QueryContext_selectAll_perm h.expenseSvc.db rows hq
  have hresp : (∀ r ∈ rows, r.Amount.isFinite = true) →
      (h.ListExpenses c).1 = ⟨200, .expenses (some rows)⟩ := by
    intro hfin
    rw [ListExpenses_ok h c rows hq, answer_JSON_expenses 200 rows hfin]
  refine ⟨hl, hresp, hperm, hperm.length_eq, ?_⟩
  intro hempty
  have hr : rows = [] := by
    rw [hempty] at hperm
    exact List.Perm.eq_nil hperm
  subst hr
  refine ⟨hl, hresp (by simp), ?_⟩
  intro enc
  have he : json.encodeSlice enc (some ([] : List Expense)) = "[]" := rfl
  exact ⟨he, by rw [he]; decide⟩

/-- A concrete instance: the empty store, and the example store with its two
rows, newest first. -/
theorem List_one_per_row_witness :
    ((⟨⟨emptyDB⟩⟩ : handler).expenseSvc.db.QueryContext .selectAll).1 = .ok [] ∧
    (⟨⟨emptyDB⟩⟩ : handler).expenseSvc.List.1 = .ok (some []) ∧
    ((⟨⟨emptyDB⟩⟩ : handler).ListExpenses (exampleContext "" none)).1 =
      ⟨200, .expenses (some [])⟩ ∧
    (exampleHandler.ListExpenses (exampleContext "" none)).1 =
      ⟨200, .expenses (some [⟨2, Float64.one, "Tea", "cup", none⟩,
        ⟨1, Float64.ten, "Ice Milk", "", some ["drinks"]⟩])⟩ :=
  have h0 : ((⟨⟨emptyDB⟩⟩ : handler).expenseSvc.db.QueryContext .selectAll).1 = .ok [] := by
    decide
  have h := List_one_per_row ⟨⟨emptyDB⟩⟩ (exampleContext "" none) [] h0
  ⟨h0, h.1, (h.2.2.2.2 rfl).2.1,
   (List_one_per_row exampleHandler (exampleContext "" none)
     [⟨2, Float64.one, "Tea", "cup", none⟩, ⟨1, Float64.ten, "Ice Milk", "", some ["drinks"]⟩]
     (by decide)).2.1 (by decide)⟩

/-- An insert that returns a row returns the row made of the next id of the store
and the four values sent. -/
theorem QueryRowContext_insert_ok (db : DB) (a : Float64) (t n : String)
    (g : Option (List String)) (r : Expense)
    (h : (db.QueryRowContext (.insert a t n g)).1 = .ok r) :
    r = ⟨db.nextID, a, t, n, g⟩ := by
  unfold DB.QueryRowContext DB.run at h
  cases hf : db.fault (.insert a t n g) with
  | some err => simp [hf] at h
  | none =>
    simp only [hf] at h
    simpa using h.symm

/-- What `Service.Save` returns when the insert returns a row. -/
theorem Save_ok (s : Service) (e r : Expense)
    (h : (s.db.QueryRowContext (.insert e.Amount e.Title e.Note e.Tags)).1 = .ok r) :
    (s.Save e).1 = .ok r := by
  unfold Service.Save createExpense
  rcases hq : s.db.QueryRowContext (.insert e.Amount e.Title e.Note e.Tags) with ⟨row, db1⟩
  rw [hq] at h
  simp only [] at h
  subst h
  rfl

/-- What `SaveExpense` answers when the body binds and validates and the insert
returns a row: the answer to `c.JSON` on status 201 and that row. -/
theorem SaveExpense_ok (h : handler) (c : Context) (exp r : Expense)
    (hbind : c.Bind = some exp) (hval : exp.Validate = none)
    (hins : (h.expenseSvc.db.QueryRowContext
      (.insert exp.Amount exp.Title exp.Note exp.Tags)).1 = .ok r) :
    (h.SaveExpense c).1 = answer (JSON 201 (.expense r)) := by
  have hs := Save_ok h.expenseSvc exp r hins
  unfold handler.SaveExpense
  rw [hbind]
  simp only []
  rw [hval]
  simp only []
  rcases hq : h.expenseSvc.Save exp with ⟨res, svc⟩
  rw [hq] at hs
  simp only [] at hs
  subst hs
  rfl

/-- C14, as stated, fails on a record whose amount is positive infinity: it
binds and passes `Validate`, the insert returns the row with the next id and the
row is stored, yet the encoder refuses the amount and the answer is status 500,
not 201 with the row. -/
theorem Save_created_inf_counterexample :
    (exampleContext "" (some ⟨0, Float64.inf, "Gold", "", none⟩)).Bind =
      some ⟨0, Float64.inf, "Gold", "", none⟩ ∧
    (⟨0, Float64.inf, "Gold", "", none⟩ : Expense).Validate = none ∧
    Float64.inf.gt Float64.zero = true ∧
    (exampleHandler.expenseSvc.db.QueryRowContext (.insert Float64.inf "Gold" "" none)).1 =
      .ok ⟨3, Float64.inf, "Gold", "", none⟩ ∧
    (exampleHandler.expenseSvc.Save ⟨0, Float64.inf, "Gold", "", none⟩).1 =
      .ok ⟨3, Float64.inf, "Gold", "", none⟩ ∧
    (exampleHandler.SaveExpense
        (exampleContext "" (some ⟨0, Float64.inf, "Gold", "", none⟩))).1 =
      ⟨500, .message "Internal Server Error"⟩ ∧
    (exampleHandler.SaveExpense
        (exampleContext "" (some ⟨0, Float64.inf, "Gold", "", none⟩))).1 ≠
      ⟨201, .expense ⟨3, Float64.inf, "Gold", "", none⟩⟩ ∧
    (exampleHandler.SaveExpense
        (exampleContext "" (some ⟨0, Float64.inf, "Gold", "", none⟩))).2.expenseSvc.db.rows =
      exampleDB.rows ++ [⟨3, Float64.inf, "Gold", "", none⟩] := by
  decide

/-- C14, amended. When the body binds to a record that passes `Validate` and the
insert returns the row `r`, `Service.Save` returns `r` with a nil error; the id of
`r` is the next id of the store, whatever id the body carried, and its amount,
title, note and tags are those inserted; and when that amount is finite,
`SaveExpense` answers status 201 with the record `r`. -/
theorem Save_created (h : handler) (c : Context) (exp r : Expense)
    (hbind : c.Bind = some exp) (hval : exp.Validate = none)
    (hins : (h.expenseSvc.db.QueryRowContext
      (.insert exp.Amount exp.Title exp.Note exp.Tags)).1 = .ok r) :
    (h.expenseSvc.Save exp).1 = .ok r ∧
    r = ⟨h.expenseSvc.db.nextID, exp.Amount, exp.Title, exp.Note, exp.Tags⟩ ∧
    (exp.Amount.isFinite = true →
      (h.SaveExpense c).1 = ⟨201, .expense ⟨r.ID, r.Amount, r.Title, r.Note, r.Tags⟩⟩) := by
  have hs := Save_ok h.expenseSvc exp r hins
  have hr := QueryRowContext_insert_ok _ _ _ _ _ r hins
  refine ⟨hs, hr, ?_⟩
  intro hfin
  have hrfin : r.Amount.isFinite = true := by rw [hr]; exact hfin
  rw [SaveExpense_ok h c exp r hbind hval hins, answer_JSON_expense 201 r hrfin]

/-- A concrete instance: the record of the test, sent with id 1 to a store whose
next id is 3. -/
theorem Save_created_witness :
    ((exampleContext "" (some ⟨1, Float64.seventyFive, "Halo Kitty", "buy tea and coffee",
        some ["drinks", "juices"]⟩)).Bind =
        some ⟨1, Float64.seventyFive, "Halo Kitty", "buy tea and coffee",
          some ["drinks", "juices"]⟩ ∧
      (⟨1, Float64.seventyFive, "Halo Kitty", "buy tea and coffee",
        some ["drinks", "juices"]⟩ : Expense).Validate = none ∧
      (exampleHandler.expenseSvc.db.QueryRowContext
        (.insert Float64.seventyFive "Halo Kitty" "buy tea and coffee"
          (some ["drinks", "juices"]))).1 =
        .ok ⟨3, Float64.seventyFive, "Halo Kitty", "buy tea and coffee",
          some ["drinks", "juices"]⟩) ∧
    (exampleHandler.SaveExpense
        (exampleContext "" (some ⟨1, Float64.seventyFive, "Halo Kitty", "buy tea and coffee",
          some ["drinks", "juices"]⟩))).1 =
      ⟨201, .expense ⟨3, Float64.seventyFive, "Halo Kitty", "buy tea and coffee",
        some ["drinks", "juices"]⟩⟩ :=
  have hins : (exampleHandler.expenseSvc.db.QueryRowContext
      (.insert
        (⟨1, Float64.seventyFive, "Halo Kitty", "buy tea and coffee",
          some ["drinks", "juices"]⟩ : Expense).Amount
        (⟨1, Float64.seventyFive, "Halo Kitty", "buy tea and coffee",
          some ["drinks", "juices"]⟩ : Expense).Title
        (⟨1, Float64.seventyFive, "Halo Kitty", "buy tea and coffee",
          some ["drinks", "juices"]⟩ : Expense).Note
        (⟨1, Float64.seventyFive, "Halo Kitty", "buy tea and coffee",
          some ["drinks", "juices"]⟩ : Expense).Tags)).1 =
      .ok ⟨3, Float64.seventyFive, "Halo Kitty", "buy tea and coffee",
        some ["drinks", "juices"]⟩ := by decide
  ⟨⟨rfl, by decide, hins⟩,
   (Save_created exampleHandler
     (exampleContext "" (some ⟨1, Float64.seventyFive, "Halo Kitty", "buy tea and coffee",
       some ["drinks", "juices"]⟩))
     ⟨1, Float64.seventyFive, "Halo Kitty", "buy tea and coffee", some ["drinks", "juices"]⟩
     ⟨3, Float64.seventyFive, "Halo Kitty", "buy tea and coffee", some ["drinks", "juices"]⟩
     rfl (by decide) hins).2.2 (by decide)⟩

/-- A select by id that returns a row returns a row of that id. -/
theorem QueryRowContext_select_ok_id (db : DB) (id : Int) (f : Expense)
    (h : (db.QueryRowContext (.selectByID id)).1 = .ok f) : f.ID = id := by
  unfold DB.QueryRowContext DB.run at h
  cases hf : db.fault (.selectByID id) with
  | some err => simp [hf] at h
  | none =>
    simp only [hf] at h
    cases hr : (db.rows.filter (fun r => r.ID == id)).take 1 with
    | nil => simp [hr] at h
    | cons r rs =>
      simp only [hr] at h
      have hrf : r = f := by simpa using h
      have hmem : r ∈ (db.rows.filter (fun r => r.ID == id)).take 1 := by
        rw [hr]; exact List.mem_cons_self _ _
      have hmem2 := List.mem_of_mem_take hmem
      rw [List.mem_filter] at hmem2
      rw [← hrf]
      simpa using hmem2.2

/-- The statements `Service.Update` issues: the select for the id of its record,
then at most the update for that same id. -/
theorem Update_log (s : Service) (e : Expense) :
    (s.Update e).2.db.log = s.db.log ++ [.selectByID e.ID] ∨
    (s.Update e).2.db.log =
      s.db.log ++ [.selectByID e.ID, .update e.Amount e.Title e.Note e.Tags e.ID] := by
  cases hg : (getExpenseByID s.db e.ID).1 with
  | error err =>
    left
    rw [Update_error s e err hg]
  | ok f =>
    right
    have hq : (s.db.QueryRowContext (.selectByID e.ID)).1 = .ok f := by
      rw [getExpenseByID_fst] at hg
      cases hrow : (s.db.QueryRowContext (.selectByID e.ID)).1 with
      | error d =>
        rw [hrow] at hg
        simp only [] at hg
        split at hg <;> simp at hg
      | ok f2 =>
        rw [hrow] at hg
        simpa using hg
    have hid := QueryRowContext_select_ok_id s.db e.ID f hq
    rw [Update_ok s e f hg, updateExpense_eq]
    simp only [hid]
    unfold DB.ExecContext DB.run
    simp only []
    cases hf : s.db.fault (.update e.Amount e.Title e.Note e.Tags e.ID) <;> simp

/-- C15. When the id parameter is the valid integer `p` and the body binds to a
record that passes `Validate`, `UpdateExpense` calls `Service.Update` with that
record and id `p`: the store after the call is the one `Service.Update` leaves for
that record, the answer does not depend on the id the body carried, and the
statements issued are the select for id `p` and at most the update for id `p`;
the record `Service.Update` returns is the one answered with status 200 when its
amount is finite. -/
theorem Update_uses_path_id (h : handler) (c : Context) (p : Int) (exp : Expense)
    (hid : base10Int64 (c.Param "id") = some p)
    (hbind : c.Bind = some exp) (hval : exp.Validate = none) :
    (h.UpdateExpense c).2 = ⟨(h.expenseSvc.Update { exp with ID := p }).2⟩ ∧
    (∀ ex, (h.expenseSvc.Update { exp with ID := p }).1 = .ok ex →
      ex.Amount.isFinite = true →
      (h.UpdateExpense c).1 = some ⟨200, .expense ex⟩) ∧
    (∀ j : Int, h.UpdateExpense { c with Bind := some { exp with ID := j } } =
      h.UpdateExpense c) ∧
    ((h.UpdateExpense c).2.expenseSvc.db.log =
        h.expenseSvc.db.log ++ [.selectByID p] ∨
      (h.UpdateExpense c).2.expenseSvc.db.log =
        h.expenseSvc.db.log ++
          [.selectByID p, .update exp.Amount exp.Title exp.Note exp.Tags p]) := by
  have hp := (ParseInt_spec (c.Param "id")).1 p hid
  have hunf : h.UpdateExpense c =
      match h.expenseSvc.Update { exp with ID := p } with
      | (.error err, svc) =>
        if errors.Is (some err) ErrNotFound then
          ((unwrapError err).map (fun m => answer (JSON 404 (.map ⟨404, m⟩))), ⟨svc⟩)
        else
          (some (answer (JSON 500 (.map ⟨500, "Internal Server Error: "⟩))), ⟨svc⟩)
      | (.ok ex, svc) => (some (answer (JSON 200 (.expense ex))), ⟨svc⟩) := by
    unfold handler.UpdateExpense
    rw [hp]
    simp only []
    rw [hbind]
    simp only []
    rw [hval]
  have hsnd : (h.UpdateExpense c).2 = ⟨(h.expenseSvc.Update { exp with ID := p }).2⟩ := by
    rw [hunf]
    rcases hu : h.expenseSvc.Update { exp with ID := p } with ⟨r, svc⟩
    cases r with
    | error err =>
      simp only []
      split <;> rfl
    | ok ex => rfl
  refine ⟨hsnd, ?_, ?_, ?_⟩
  · intro ex hex hfin
    rw [hunf]
    rcases hu : h.expenseSvc.Update { exp with ID := p } with ⟨r, svc⟩
    rw [hu] at hex
    simp only [] at hex
    subst hex
    simp only []
    rw [answer_JSON_expense 200 ex hfin]
  · intro j
    have hvalj : ({ exp with ID := j } : Expense).Validate = none := hval
    rw [hunf]
    unfold handler.UpdateExpense
    simp only []
    rw [hp]
    simp only []
    rw [hvalj]
  · rw [hsnd]
    exact Update_log h.expenseSvc { exp with ID := p }

/-- A concrete instance: the path names row 2 and the body carries id 1; row 2 is
the one fetched and updated. -/
theorem Update_uses_path_id_witness :
    (base10Int64 ((exampleContext "2" (some ⟨1, Float64.seventyFive, "Halo Kitty", "buy tea",
        some ["drinks", "juices"]⟩)).Param "id") = some 2 ∧
      (⟨1, Float64.seventyFive, "Halo Kitty", "buy tea",
        some ["drinks", "juices"]⟩ : Expense).Validate = none) ∧
    (exampleHandler.UpdateExpense (exampleContext "2" (some ⟨1, Float64.seventyFive,
        "Halo Kitty", "buy tea", some ["drinks", "juices"]⟩))).1 =
      some ⟨200, .expense ⟨2, Float64.seventyFive, "Halo Kitty", "buy tea",
        some ["drinks", "juices"]⟩⟩ ∧
    (exampleHandler.UpdateExpense (exampleContext "2" (some ⟨1, Float64.seventyFive,
        "Halo Kitty", "buy tea", some ["drinks", "juices"]⟩))).2.expenseSvc.db.log =
      [.selectByID 2,
       .update Float64.seventyFive "Halo Kitty" "buy tea" (some ["drinks", "juices"]) 2] :=
  have h := Update_uses_path_id exampleHandler
    (exampleContext "2" (some ⟨1, Float64.seventyFive, "Halo Kitty", "buy tea",
      some ["drinks", "juices"]⟩)) 2
    ⟨1, Float64.seventyFive, "Halo Kitty", "buy tea", some ["drinks", "juices"]⟩
    (by decide) rfl (by decide)
  ⟨⟨by decide, by decide⟩,
   h.2.1 ⟨2, Float64.seventyFive, "Halo Kitty", "buy tea", some ["drinks", "juices"]⟩
     (by decide) (by decide),
   (congrArg (fun x : handler => x.expenseSvc.db.log) h.1).trans (by decide)⟩

/-- C16. The function `getEnv` returns the value of the variable when it is set
and not empty, and the fallback when the variable is not set and when it is set
to the empty string. -/
theorem getEnv_spec (env : os.Environ) (key fallback : String) :
    (∀ v, env key = some v → v ≠ "" → getEnv env key fallback = v) ∧
    (env key = none → getEnv env key fallback = fallback) ∧
    (env key = some "" → getEnv env key fallback = fallback) := by
  refine ⟨?_, ?_, ?_⟩
  · intro v hv hne
    simp [getEnv, os.Getenv, hv, hne]
  · intro hn
    simp [getEnv, os.Getenv, hn]
  · intro he
    simp [getEnv, os.Getenv, he]

/-- A concrete instance: the two cases of the test, and a variable set to the
empty string. -/
theorem getEnv_spec_witness :
    (exampleEnv "PORT" = some "8000" ∧ exampleEnv "HOME" = none ∧
      exampleEnvEmpty "PORT" = some "") ∧
    getEnv exampleEnv "PORT" "3000" = "8000" ∧
    getEnv exampleEnv "HOME" "3000" = "3000" ∧
    getEnv exampleEnvEmpty "PORT" "3001" = "3001" :=
  ⟨by decide,
   (getEnv_spec exampleEnv "PORT" "3000").1 "8000" (by decide) (by decide),
   (getEnv_spec exampleEnv "HOME" "3000").2.1 (by decide),
   (getEnv_spec exampleEnvEmpty "PORT" "3001").2.2 (by decide)⟩

end cmd

/-! ## time.Parse and Auth -/

namespace time

/-- The character of a code point below 128 has that code point. -/
theorem toNat_ofNat_small (n : Nat) (h : n < 128) : (Char.ofNat n).toNat = n := by
  have hv : n.isValidChar := Or.inl (by omega)
  simp only [Char.ofNat, hv, dite_true, Char.ofNatAux, Char.toNat]
  show (UInt32.ofNat' n _).toNat = n
  simp [UInt32.ofNat', UInt32.toNat]

/-- In a value that starts with the name of a month, `lookup` finds that month and leaves the rest. -/
theorem lookup_month (i : Nat) (hi : i < 12) (tail : List Nat) :
    lookup longMonthNames (bytes (longMonthNames.getD i "") ++ tail) = some (i, tail) := by
  have h1 : bytes "January" = [74, 97, 110, 117, 97, 114, 121] := by decide
  have h2 : bytes "February" = [70, 101, 98, 114, 117, 97, 114, 121] := by decide
  have h3 : bytes "March" = [77, 97, 114, 99, 104] := by decide
  have h4 : bytes "April" = [65, 112, 114, 105, 108] := by decide
  have h5 : bytes "May" = [77, 97, 121] := by decide
  have h6 : bytes "June" = [74, 117, 110, 101] := by decide
  have h7 : bytes "July" = [74, 117, 108, 121] := by decide
  have h8 : bytes "August" = [65, 117, 103, 117, 115, 116] := by decide
  have h9 : bytes "September" = [83, 101, 112, 116, 101, 109, 98, 101, 114] := by decide
  have h10 : bytes "October" = [79, 99, 116, 111, 98, 101, 114] := by decide
  have h11 : bytes "November" = [78, 111, 118, 101, 109, 98, 101, 114] := by decide
  have h12 : bytes "December" = [68, 101, 99, 101, 109, 98, 101, 114] := by decide
  unfold lookup longMonthNames
  simp only [lookupFrom, h1, h2, h3, h4, h5, h6, h7, h8, h9, h10, h11, h12]
  interval_cases i <;>
    simp [matchFold, h1, h2, h3, h4, h5, h6, h7, h8, h9, h10, h11, h12]

/-- Cutting the leading spaces does not lengthen a string. -/
theorem cutspace_length_le (s : List Nat) : (cutspace s).length ≤ s.length := by
  unfold cutspace
  induction s with
  | nil => simp
  | cons a t ih =>
    simp only [List.dropWhile_cons]
    split
    · simp only [List.length_cons]; omega
    · simp

/-- The bound on the rounds of `skip` is never reached: any bound of at least the
length of the prefix gives the same result. -/
theorem skipLoop_fuel : ∀ (f1 f2 : Nat) (v pre : List Nat),
    pre.length ≤ f1 → pre.length ≤ f2 → skipLoop f1 v pre = skipLoop f2 v pre := by
  intro f1
  induction f1 with
  | zero =>
    intro f2 v pre h1 _
    have hp : pre = [] := List.eq_nil_of_length_eq_zero (by omega)
    subst hp
    cases f2 <;> rfl
  | succ k1 ih =>
    intro f2 v pre h1 h2
    cases pre with
    | nil => cases f2 <;> rfl
    | cons p ps =>
      cases f2 with
      | zero => simp at h2
      | succ k2 =>
        simp only [List.length_cons] at h1 h2
        unfold skipLoop
        by_cases hp : p = 32
        · subst hp
          have hc : cutspace (32 :: ps) = cutspace ps := by simp [cutspace, List.dropWhile_cons]
          have hl := cutspace_length_le ps
          simp only [if_true, hc]
          split
          · rfl
          · exact ih k2 _ _ (by omega) (by omega)
        · simp only [hp, if_false]
          split
          · rfl
          · exact ih k2 _ _ (by omega) (by omega)

/-- The empty prefix skips nothing. -/
theorem skip_nil (v : List Nat) : skip v (bytes "") = some v := by
  have h : bytes "" = [] := by decide
  rw [h]
  cases v <;> rfl

/-- A space of the layout skips one space of the value. -/
theorem skip_space (a : Nat) (tail : List Nat) (ha : a ≠ 32) :
    skip (32 :: a :: tail) (bytes " ") = some (a :: tail) := by
  have h : bytes " " = [32] := by decide
  rw [h]
  have hb : (a == 32) = false := by simp [ha]
  simp [skip, skipLoop, cutspace, List.dropWhile, hb]

/-- The prefix of the year skips a comma and a space. -/
theorem skip_comma_space (a : Nat) (tail : List Nat) (ha : a ≠ 32) :
    skip (44 :: 32 :: a :: tail) (bytes ", ") = some (a :: tail) := by
  have h : bytes ", " = [44, 32] := by decide
  rw [h]
  have hb : (a == 32) = false := by simp [ha]
  simp [skip, skipLoop, cutspace, List.dropWhile, hb]

/-- Two digits are read as a number of two digits. -/
theorem getnum_two (d1 d2 : Nat) (tail : List Nat) (h1 : d1 < 10) (h2 : d2 < 10) :
    getnum ((48 + d1) :: (48 + d2) :: tail) true = some (d1 * 10 + d2, tail) := by
  have e1 : isDigit ((48 + d1) :: (48 + d2) :: tail) 0 = true := by
    simp [isDigit]; omega
  have e2 : isDigit ((48 + d1) :: (48 + d2) :: tail) 1 = true := by
    simp [isDigit]; omega
  simp [getnum, e1, e2]

/-- Four digits are read as their number. -/
theorem atoi_four (y1 y2 y3 y4 : Nat) (h1 : y1 < 10) (h2 : y2 < 10) (h3 : y3 < 10)
    (h4 : y4 < 10) :
    atoi [48 + y1, 48 + y2, 48 + y3, 48 + y4] =
      some ((y1 * 1000 + y2 * 100 + y3 * 10 + y4 : Nat) : Int) := by
  have hl : leadingInt [48 + y1, 48 + y2, 48 + y3, 48 + y4] 0 =
      some (y1 * 1000 + y2 * 100 + y3 * 10 + y4, []) := by
    simp only [leadingInt]
    rw [if_neg (by omega), if_neg (by omega), if_neg (by omega),
      if_neg (by omega), if_neg (by omega), if_neg (by omega),
      if_neg (by omega), if_neg (by omega), if_neg (by omega),
      if_neg (by omega), if_neg (by omega), if_neg (by omega)]
    congr 2
    omega
  unfold atoi
  have hh : ([48 + y1, 48 + y2, 48 + y3, 48 + y4] : List Nat).head? = some (48 + y1) := rfl
  simp only [hh]
  rw [if_neg (by simp; omega)]
  simp only [hl]
  have hneg : decide (some (48 + y1) = some 45) = false := by simp; omega
  simp only [hneg]
  simp only [ne_eq, not_true_eq_false, if_false]
  have := strconv.int64_of_small (y1 * 1000 + y2 * 100 + y3 * 10 + y4) (by omega)
  simp only [Bool.false_eq_true, if_false, this]

/-- The two digits of a number. -/
theorem padDigits_two (u : Nat) : padDigits 2 u = [48 + u / 10 % 10, 48 + u % 10] := by
  simp [padDigits]

/-- The four digits of a number. -/
theorem padDigits_four (u : Nat) :
    padDigits 4 u = [48 + u / 1000 % 10, 48 + u / 100 % 10, 48 + u / 10 % 10, 48 + u % 10] := by
  simp [padDigits, Nat.div_div_eq_div_mul]

/-- No month has more than 31 days. -/
theorem daysIn_le (m : Nat) (y : Int) : daysIn m y ≤ 31 := by
  unfold daysIn
  split
  · omega
  · by_cases hm : m - 1 < 12
    · interval_cases h : m - 1 <;> simp
    · have : ([31, 28, 31, 30, 31, 30, 31, 31, 30, 31, 30, 31] : List Nat).getD (m - 1) 0 = 0 := by
        apply List.getD_eq_default
        simp; omega
      omega

/-- The bytes of a date of the years 0 to 9999 written in the layout. -/
theorem formatBytes_eq (n m d : Nat) (hn : n ≤ 9999) (hm : 1 ≤ m ∧ m ≤ 12) (hd : d ≤ 31) :
    formatBytes ⟨(n : Int), m, d⟩ =
      bytes (longMonthNames.getD (m - 1) "") ++
        [32, 48 + d / 10 % 10, 48 + d % 10, 44, 32,
          48 + n / 1000 % 10, 48 + n / 100 % 10, 48 + n / 10 % 10, 48 + n % 10] := by
  have hs : bytes " " = [32] := by decide
  have hc : bytes ", " = [44, 32] := by decide
  have hday : appendInt ((d : Nat) : Int) 2 = [48 + d / 10 % 10, 48 + d % 10] := by
    unfold appendInt
    rw [if_neg (by omega), if_pos (by simp; omega)]
    simp [padDigits_two]
  have hyear : appendInt (n : Int) 4 =
      [48 + n / 1000 % 10, 48 + n / 100 % 10, 48 + n / 10 % 10, 48 + n % 10] := by
    unfold appendInt
    rw [if_neg (by omega), if_pos (by simp; omega)]
    simp [padDigits_four]
  unfold formatBytes monthString
  simp only []
  rw [if_pos hm, hs, hc, hday, hyear]
  simp

/-- A date written in the layout parses back to itself, and does not parse when
more bytes follow. -/
theorem parseBytes_formatBytes (t : Time) (rest : List Nat)
    (hy : 0 ≤ t.year ∧ t.year ≤ 9999) (hm : 1 ≤ t.month ∧ t.month ≤ 12)
    (hd : 1 ≤ t.day ∧ t.day ≤ daysIn t.month t.year) :
    parseBytes (formatBytes t ++ rest) = if rest = [] then some t else none := by
  obtain ⟨y, m, d⟩ := t
  simp only [] at hy hm hd
  obtain ⟨n, rfl⟩ : ∃ n : Nat, y = (n : Int) := ⟨y.toNat, by omega⟩
  have hn : n ≤ 9999 := by omega
  have hd31 := daysIn_le m (n : Int)
  have hfmt : formatBytes ⟨(n : Int), m, d⟩ ++ rest =
      bytes (longMonthNames.getD (m - 1) "") ++
        (32 :: (48 + d / 10 % 10) :: (48 + d % 10) :: 44 :: 32 ::
          (48 + n / 1000 % 10) :: (48 + n / 100 % 10) :: (48 + n / 10 % 10) ::
          (48 + n % 10) :: rest) := by
    rw [formatBytes_eq n m d hn hm (by omega)]
    simp
  rw [hfmt]
  unfold parseBytes
  rw [skip_nil]
  simp only []
  rw [lookup_month (m - 1) (by omega)]
  simp only []
  rw [skip_space _ _ (by omega)]
  simp only []
  rw [getnum_two _ _ _ (by omega) (by omega)]
  simp only []
  rw [skip_comma_space _ _ (by omega)]
  simp only []
  have hdig : isDigit ((48 + n / 1000 % 10) :: (48 + n / 100 % 10) :: (48 + n / 10 % 10) ::
      (48 + n % 10) :: rest) 0 = true := by
    simp [isDigit]; omega
  rw [if_neg (by simp [hdig])]
  have htake : ((48 + n / 1000 % 10) :: (48 + n / 100 % 10) :: (48 + n / 10 % 10) ::
      (48 + n % 10) :: rest).take 4 =
        [48 + n / 1000 % 10, 48 + n / 100 % 10, 48 + n / 10 % 10, 48 + n % 10] := by simp
  have hdrop : ((48 + n / 1000 % 10) :: (48 + n / 100 % 10) :: (48 + n / 10 % 10) ::
      (48 + n % 10) :: rest).drop 4 = rest := by simp
  rw [htake, hdrop, atoi_four _ _ _ _ (by omega) (by omega) (by omega) (by omega)]
  simp only []
  rw [skip_nil]
  simp only []
  have hyv : n / 1000 % 10 * 1000 + n / 100 % 10 * 100 + n / 10 % 10 * 10 + n % 10 = n := by
    omega
  have hdv : d / 10 % 10 * 10 + d % 10 = d := by omega
  have hm1 : m - 1 + 1 = m := by omega
  rw [hyv, hdv, hm1]
  by_cases hr : rest = []
  · subst hr
    simp only [List.length_nil, ne_eq, not_true_eq_false, if_false, if_true]
    rw [if_neg (by omega)]
  · rw [if_pos (by simpa using hr), if_neg hr]

/-- A text made of bytes below 128 has these bytes. -/
theorem bytes_ofBytes (bs : List Nat) (h : ∀ b ∈ bs, b < 128) :
    bytes (String.mk (bs.map Char.ofNat)) = bs := by
  unfold bytes
  show (bs.map Char.ofNat).flatMap utf8 = bs
  induction bs with
  | nil => rfl
  | cons b bs ih =>
    have hb : b < 128 := h b (List.mem_cons_self _ _)
    have hu : utf8 (Char.ofNat b) = [b] := by
      rw [utf8_ascii _ (by rw [toNat_ofNat_small b hb]; exact hb), toNat_ofNat_small b hb]
    simp only [List.map_cons, List.flatMap_cons, hu]
    rw [ih (fun x hx => h x (List.mem_cons_of_mem _ hx))]
    rfl

/-- The bytes of a concatenation. -/
theorem bytes_append (a b : String) : bytes (a ++ b) = bytes a ++ bytes b := by
  unfold bytes
  simp [String.toList, String.data_append, List.flatMap_append]

/-- The names of the months are ASCII. -/
theorem month_bytes_ascii (i : Nat) (hi : i < 12) :
    ∀ b ∈ bytes (longMonthNames.getD i ""), b < 128 := by
  interval_cases i <;> decide

/-- The bytes of a date of the years 0 to 9999 written in the layout are ASCII. -/
theorem formatBytes_ascii (t : Time) (hy : 0 ≤ t.year ∧ t.year ≤ 9999)
    (hm : 1 ≤ t.month ∧ t.month ≤ 12) (hd : 1 ≤ t.day ∧ t.day ≤ daysIn t.month t.year) :
    ∀ b ∈ formatBytes t, b < 128 := by
  obtain ⟨y, m, d⟩ := t
  simp only [] at hy hm hd
  obtain ⟨n, rfl⟩ : ∃ n : Nat, y = (n : Int) := ⟨y.toNat, by omega⟩
  have hd31 := daysIn_le m (n : Int)
  rw [formatBytes_eq n m d (by omega) hm (by omega)]
  intro b hb
  rcases List.mem_append.1 hb with hb | hb
  · exact month_bytes_ascii (m - 1) (by omega) b hb
  · simp only [List.mem_cons, List.mem_singleton, List.not_mem_nil, or_false] at hb
    omega

/-- A date of the years 0 to 9999 written in the layout parses back to itself. -/
theorem Parse_Format (t : Time) (hy : 0 ≤ t.year ∧ t.year ≤ 9999)
    (hm : 1 ≤ t.month ∧ t.month ≤ 12) (hd : 1 ≤ t.day ∧ t.day ≤ daysIn t.month t.year) :
    Parse (Format t) = some t := by
  unfold Parse Format
  rw [bytes_ofBytes _ (formatBytes_ascii t hy hm hd)]
  have := parseBytes_formatBytes t [] hy hm hd
  simpa using this

/-- Such a date followed by more text does not parse. -/
theorem Parse_Format_extra (t : Time) (extra : String) (hy : 0 ≤ t.year ∧ t.year ≤ 9999)
    (hm : 1 ≤ t.month ∧ t.month ≤ 12) (hd : 1 ≤ t.day ∧ t.day ≤ daysIn t.month t.year)
    (he : extra ≠ "") :
    Parse (Format t ++ extra) = none := by
  unfold Parse
  rw [bytes_append]
  unfold Format
  rw [bytes_ofBytes _ (formatBytes_ascii t hy hm hd), parseBytes_formatBytes t _ hy hm hd]
  have hne : bytes extra ≠ [] := by
    unfold bytes
    rw [Ne, flatMap_utf8_eq_nil]
    intro h
    apply he
    cases extra
    simp only [String.toList] at h
    subst h
    rfl
  rw [if_neg hne]

end time

namespace cmd

open expense echo

/-- C12. The middleware `Auth` calls `next` and returns what it returns when the
Authorization header parses with the layout "January 02, 2006", and for every
other header value it writes status 401 with the map of code 401 and message
"missing or invalid token authentication" and leaves the state as it was,
whatever `next` is. No clock is read: every date of the years 0 to 9999 written
in the layout is let through, and such a date followed by more text, like a
missing header (the empty value), is refused. -/
theorem Auth_spec {σ : Type} (next : HandlerFunc σ) (c : Context) (s : σ) :
    ((time.Parse (c.Header "Authorization")).isSome = true → Auth next c s = next c s) ∧
    (time.Parse (c.Header "Authorization") = none →
      Auth next c s =
        (some ⟨401, .map ⟨401, "missing or invalid token authentication"⟩⟩, s)) ∧
    (∀ t : time.Time, 0 ≤ t.year ∧ t.year ≤ 9999 → 1 ≤ t.month ∧ t.month ≤ 12 →
      1 ≤ t.day ∧ t.day ≤ time.daysIn t.month t.year →
      (c.Header "Authorization" = time.Format t → Auth next c s = next c s) ∧
      (∀ extra : String, extra ≠ "" → c.Header "Authorization" = time.Format t ++ extra →
        Auth next c s =
          (some ⟨401, .map ⟨401, "missing or invalid token authentication"⟩⟩, s))) ∧
    (c.Header "Authorization" = "" →
      Auth next c s =
        (some ⟨401, .map ⟨401, "missing or invalid token authentication"⟩⟩, s)) ∧
    Map.json ⟨401, "missing or invalid token authentication"⟩ =
      "\x7b\"code\":401,\"message\":\"missing or invalid token authentication\"\x7d" ∧
    time.Format ⟨2006, 1, 2⟩ ++ " 55555" = "January 02, 2006 55555" := by
  have hsome : ∀ v, time.Parse (c.Header "Authorization") = some v →
      Auth next c s = next c s := by
    intro v hv
    unfold Auth
    simp only [hv]
  have hnone : time.Parse (c.Header "Authorization") = none →
      Auth next c s =
        (some ⟨401, .map ⟨401, "missing or invalid token authentication"⟩⟩, s) := by
    intro hn
    unfold Auth
    simp only [hn]
    rfl
  refine ⟨?_, hnone, ?_, ?_, by decide, by decide⟩
  · intro h
    obtain ⟨v, hv⟩ := Option.isSome_iff_exists.1 h
    exact hsome v hv
  · intro t hy hm hd
    constructor
    · intro hh
      exact hsome t (by rw [hh]; exact time.Parse_Format t hy hm hd)
    · intro extra he hh
      exact hnone (by rw [hh]; exact time.Parse_Format_extra t extra hy hm hd he)
  · intro hh
    exact hnone (by rw [hh]; decide)

/-- A concrete instance: the header of the test with more text after the date, a
missing header, and a date of the future, against a handler that counts its
calls. -/
theorem Auth_spec_witness :
    (time.Parse ((exampleContextAuth "January 02, 2006 55555").Header "Authorization") = none ∧
      (time.Parse ((exampleContextAuth "November 04, 2126").Header "Authorization")).isSome =
        true ∧
      (exampleContextAuth "").Header "Authorization" = "") ∧
    Auth exampleNext (exampleContextAuth "January 02, 2006 55555") 0 =
      (some ⟨401, .map ⟨401, "missing or invalid token authentication"⟩⟩, 0) ∧
    Auth exampleNext (exampleContextAuth "") 0 =
      (some ⟨401, .map ⟨401, "missing or invalid token authentication"⟩⟩, 0) ∧
    Auth exampleNext (exampleContextAuth "November 04, 2126") 0 =
      (some ⟨200, .map ⟨200, "test"⟩⟩, 1) :=
  have h1 : time.Parse ((exampleContextAuth "January 02, 2006 55555").Header "Authorization") =
      none := by decide
  have h2 : (time.Parse ((exampleContextAuth "November 04, 2126").Header "Authorization")).isSome =
      true := by decide
  ⟨⟨h1, h2, rfl⟩,
   (Auth_spec exampleNext (exampleContextAuth "January 02, 2006 55555") 0).2.1 h1,
   (Auth_spec exampleNext (exampleContextAuth "") 0).2.2.2.1 rfl,
   (Auth_spec exampleNext (exampleContextAuth "November 04, 2126") 0).1 h2⟩

end cmd

end Assessment
